import Mathlib

/-!
Verification of the intent-resolution core of the ENCHATBOT repository.

The development shallowly embeds, in Lean, the pipeline implemented in
`src/utils/accessibility.tsx` (the current copy of `intentDetection.ts`),
`src/data/patterns.ts`, `src/data/precompiledMatchers.ts`, `src/data/lexicon.ts`
and `src/utils/preprocess.ts` (`src/unnamed/part_005`):

* `normalize`, `score`, `resolveIntents` — the scorer and resolver;
* the pattern tables (`PATTERNS`), the precompiled matchers (`RX`) and the
  vocabulary lists of `lexicon.ts`;
* `preprocessInput` — normalisation, tokenisation, elongation collapse and the
  spell corrector with its protected-token sets.

Scores are embedded as rational numbers (`ℚ`); JavaScript numbers are IEEE
doubles, but every weight in the source is a short decimal literal and every
operation performed on scores (sums and differences of a handful of such
literals, and comparisons) is exact in double precision at these magnitudes,
so `ℚ` arithmetic agrees with the source on all quantities the theorems
mention.

Regular expressions are embedded by hand-translating each concrete pattern of
the source into an executable matcher over the normalised text; alternations
are expanded into explicit word/phrase lists.  Word-boundary (`\b`) semantics
follow JavaScript: a boundary sits at a position whose two neighbouring
characters (start/end of string counting as non-word) differ in membership of
`[A-Za-z0-9_]`.  Since `normalize` collapses every whitespace run to a single
space before any pattern is consulted, `\s+` inside a pattern is embedded as a
single space.  Unicode NFD/NFKD decomposition is embedded as the identity on
code points (the inputs of every theorem below are ASCII, where it is the
identity), followed — as in the source — by removal of combining marks
U+0300–U+036F.
-/

set_option maxRecDepth 4000

namespace Chatbot

/-- Intent labels, in the exact order of the `INTENTS` array of the source
(the insertion order of the score object, hence the iteration order of
`Object.entries`). -/
inductive Intent where
  | greeting
  | farewell
  | thanks
  | affirmative
  | negative
  | help
  | troubleshooting
  | download_request
  | viz_request
  | data_query
  | filter_change
  | time_change
  | metadata_request
  | compare_request
  | command
  | question
  | smalltalk
  | ambiguous
  | statement
  | invalid
deriving DecidableEq, Repr, Fintype

open Intent

/-- List of all intents in source order (`INTENTS` in `intentDetection`). -/
def INTENTS : List Intent :=
  [greeting, farewell, thanks, affirmative, negative, help, troubleshooting,
   download_request, viz_request, data_query, filter_change, time_change,
   metadata_request, compare_request, command, question, smalltalk,
   ambiguous, statement, invalid]

theorem INTENTS_complete : ∀ i : Intent, i ∈ INTENTS := by
  intro i; cases i <;> simp [INTENTS]

/-- Score vectors: `Scores = Record<Intent, number>` of the source.  Scores
are embedded as integers in units of one tenth: every weight and every
heuristic constant of the source is a decimal tenth, so all sums and
differences the pipeline forms are exact multiples of 0.1, and the one
product (`topScore * COINTENT_FRACTION`) is compared after clearing
denominators.  (`ℚ` would be the direct image, but its kernel-irreducible
arithmetic cannot be evaluated inside proofs.) -/
def Scores : Type := Intent → Int

/-- Pointwise update of a score vector (a single JavaScript field mutation). -/
def updS (s : Scores) (i : Intent) (v : Int) : Scores :=
  fun j => if j = i then v else s j

/-- Score vector with every entry zero. -/
def zeroS : Scores := fun _ => 0

/- ===================== Characters and strings ===================== -/

/-- ASCII apostrophe, kept out of string literals. -/
def qS : Char := Char.ofNat 39

/-- ASCII double quote. -/
def qD : Char := Char.ofNat 34

/-- Left curly single quote U+2018. -/
def qLS : Char := Char.ofNat 8216

/-- Right curly single quote U+2019. -/
def qRS : Char := Char.ofNat 8217

/-- Left curly double quote U+201C. -/
def qLD : Char := Char.ofNat 8220

/-- Right curly double quote U+201D. -/
def qRD : Char := Char.ofNat 8221

/-- En dash U+2013. -/
def enDash : Char := Char.ofNat 8211

/-- Em dash U+2014. -/
def emDash : Char := Char.ofNat 8212

/-- Apostrophe as a one-character string, used to build vocabulary entries. -/
def ap : String := String.mk [qS]

/-- Right curly quote as a one-character string. -/
def rq : String := String.mk [qRS]

/-- Word characters in the JavaScript sense (`\w`, hence `\b`): ASCII letters,
digits and underscore. -/
def isWordChar (c : Char) : Bool :=
  (c ≥ Char.ofNat 97 && c ≤ Char.ofNat 122) ||
  (c ≥ Char.ofNat 65 && c ≤ Char.ofNat 90) ||
  (c ≥ Char.ofNat 48 && c ≤ Char.ofNat 57) ||
  c == Char.ofNat 95

/-- Whitespace in the JavaScript `\s` sense (the characters that occur in the
texts this development evaluates; the remaining Unicode space code points are
handled identically by the source and never appear below). -/
def isWsChar (c : Char) : Bool :=
  c == Char.ofNat 32 || c == Char.ofNat 9 || c == Char.ofNat 10 ||
  c == Char.ofNat 13 || c == Char.ofNat 11 || c == Char.ofNat 12 ||
  c == Char.ofNat 160 || c == Char.ofNat 65279

/-- ASCII lower-casing (`String.prototype.toLowerCase` restricted to the code
points the embedded texts contain). -/
def toLowerJS (c : Char) : Char :=
  if c ≥ Char.ofNat 65 && c ≤ Char.ofNat 90 then Char.ofNat (c.toNat + 32) else c

/-- Combining marks U+0300–U+036F, stripped by both normalizers. -/
def isCombiningMark (c : Char) : Bool :=
  c ≥ Char.ofNat 768 && c ≤ Char.ofNat 879

/-- Squeeze adjacent duplicate spaces. -/
def squeezeSpaces : List Char → List Char
  | [] => []
  | [c] => [c]
  | c :: d :: rest =>
    if c == Char.ofNat 32 && d == Char.ofNat 32 then squeezeSpaces (d :: rest)
    else c :: squeezeSpaces (d :: rest)

/-- Collapse every whitespace run to one space (`.replace(/\s+/g, ' ')`):
map whitespace to spaces, then squeeze runs of spaces to one. -/
def collapseWs (l : List Char) : List Char :=
  squeezeSpaces (l.map fun c => if isWsChar c then Char.ofNat 32 else c)

/-- Drop leading and trailing whitespace (`String.prototype.trim`). -/
def trimWs (l : List Char) : List Char :=
  ((l.dropWhile isWsChar).reverse.dropWhile isWsChar).reverse

/- ===================== Word-boundary matchers ===================== -/

/-- Whether the character just before the current suffix is a word character;
threaded through the scanners so `\b` can be decided locally. -/
def headWordness : List Char → Bool
  | [] => false
  | c :: _ => isWordChar c

/-- Match `w` literally at the head of `t`, returning the rest of `t`. -/
def eatChars : List Char → List Char → Option (List Char)
  | [], t => some t
  | _ :: _, [] => none
  | c :: cs, d :: ds => if c == d then eatChars cs ds else none

/-- Whether `\b w \b` matches exactly at the head of `t`, where `prevW` is the
wordness of the character preceding `t` in the full text. -/
def phraseHere (w t : List Char) (prevW : Bool) : Bool :=
  match w with
  | [] => false
  | wc :: wcs =>
    (prevW != isWordChar wc) &&
    (match eatChars (wc :: wcs) t with
     | none => false
     | some rest =>
       isWordChar ((wc :: wcs).getLastD wc) != headWordness rest)

/-- Whether `\b w \b` matches anywhere in `t` (the effect of testing a
word/phrase alternative of a `wordMatcher`/`makeGreetingRegex` pattern). -/
def scanPhrase (w : List Char) : List Char → Bool → Bool
  | [], _ => false
  | c :: rest, prevW =>
    phraseHere w (c :: rest) prevW || scanPhrase w rest (isWordChar c)

/-- Whether some entry of `ws` matches `t` as a whole word/phrase: the
embedding of `wordMatcher(ws)` / `makeGreetingRegex(ws)` applied to a
normalised (single-spaced) text. -/
def anyWord (ws : List String) (t : List Char) : Bool :=
  ws.any fun w => scanPhrase w.toList t false

/-- End positions of every `\b w \b` match of some `w ∈ ws` in `t`. -/
def allWordEnds (ws : List String) : List Char → Bool → Nat → List Nat
  | [], _, _ => []
  | c :: rest, prevW, pos =>
    ((ws.filter fun w => phraseHere w.toList (c :: rest) prevW).map
      fun w => pos + w.length) ++
    allWordEnds ws rest (isWordChar c) (pos + 1)

/-- Earliest end position over all `\b w \b` matches of words of `ws` in `t`;
used for patterns of the shape `\bA\b.*\bB\b`, whose match condition is that
some B-alternative starts at or after the least end of an A-match. -/
def firstWordEnd (ws : List String) (t : List Char) : Option Nat :=
  (allWordEnds ws t false 0).min?

/-- Whether some `w ∈ ws` matches as a word/phrase starting at or after
position `from0`. -/
def anyWordFrom (ws : List String) : List Char → Bool → Nat → Bool
  | [], _, _ => false
  | c :: rest, prevW, from0 =>
    (from0 == 0 && ws.any fun w => phraseHere w.toList (c :: rest) prevW) ||
    anyWordFrom ws rest (isWordChar c) (from0 - 1)

/-- Embedding of a pattern `\b(A1|…)\b.*\b(B1|…)\b`: some A-alternative
matches, and some B-alternative matches starting at or after its end. -/
def wordThenWord (as bs : List String) (t : List Char) : Bool :=
  match firstWordEnd as t with
  | none => false
  | some e => anyWordFrom bs t false e

/-- Whether `t` starts with some word of `ws` followed by a word boundary
(patterns anchored as `^(w1|…)\b`; the scorer text is already trimmed, so a
leading `\s*` is vacuous). -/
def startsWithWord (ws : List String) (t : List Char) : Bool :=
  ws.any fun w => phraseHere w.toList t false

/-- Whether `t` is exactly some word of `ws` followed only by characters from
`[!.,\s]` (patterns `^(w1|…)[!.,\s]*$`). -/
def standaloneWord (ws : List String) (t : List Char) : Bool :=
  ws.any fun w =>
    match eatChars w.toList t with
    | none => false
    | some rest =>
      rest.all fun c => c == Char.ofNat 33 || c == Char.ofNat 46 ||
        c == Char.ofNat 44 || isWsChar c

/-- Whether `t` contains some character of `cs` (single-character-class
patterns such as the greeting emoji list). -/
def anyChar (cs : List Char) (t : List Char) : Bool :=
  t.any fun c => cs.any fun d => d == c

/- ===================== Normalisation ===================== -/

/-- Quote folding shared by both normalizers: `[“”"']` to `"`, then `[‘’]`
to the ASCII apostrophe. -/
def foldQuotes (c : Char) : Char :=
  if c == qLD || c == qRD || c == qD || c == qS then qD
  else if c == qLS || c == qRS then qS
  else c

/-- Normalisation performed by the scorer (`normalize` in
`accessibility.tsx`): NFD (embedded as the identity on code points), strip
combining marks, fold quotes, lower-case, collapse whitespace, trim. -/
def normalize (text : String) : String :=
  String.mk (trimWs (collapseWs
    (((text.toList.filter (fun c => !isCombiningMark c)).map foldQuotes).map
      toLowerJS)))

/-- Zero-width characters removed by the preprocessor normalizer
(U+200B–U+200D and U+FEFF). -/
def isZeroWidth (c : Char) : Bool :=
  (c ≥ Char.ofNat 8203 && c ≤ Char.ofNat 8205) || c == Char.ofNat 65279

/-- Normalisation performed by the preprocessor (`normalize` in
`preprocess.ts`): NFKD (embedded as the identity on code points), strip
combining marks, fold quotes, remove zero-width characters, collapse
whitespace, trim, lower-case. -/
def normalizeP (text : String) : String :=
  String.mk ((trimWs (collapseWs
    (((text.toList.filter (fun c => !isCombiningMark c)).map foldQuotes).filter
      (fun c => !isZeroWidth c)))).map toLowerJS)

/- ===================== Lexicon (`data/lexicon.ts`) ===================== -/

/-- Vocabulary `ENERGY_TERMS`. -/
def ENERGY_TERMS : List String :=
  ["energy balance", "gross inland consumption", "final energy consumption",
   "primary energy", "electricity", "power", "gas", "natural gas",
   "renewables", "renewable", "wind", "solar", "hydro", "oil", "petroleum",
   "coal", "lignite", "biomass", "biofuel", "heat", "district heating",
   "hydrogen", "nuclear", "emissions", "emission", "co2", "ghg",
   "greenhouse gas", "price", "prices", "tariff", "tariffs", "consumption",
   "production", "generation", "imports", "import", "exports", "export",
   "net imports", "storage", "stocks", "capacity", "load", "demand", "peak",
   "efficiency", "intensity", "kwh", "mwh", "gwh", "twh", "toe", "ktoe",
   "nrg", "eurostat", "dataset", "table"]

/-- Vocabulary `MEASURE_TERMS`. -/
def MEASURE_TERMS : List String :=
  ["consumption", "production", "generation", "price", "prices", "tariff",
   "tariffs", "emission", "emissions", "capacity", "demand", "intensity",
   "efficiency", "load", "stock", "stocks", "storage"]

/-- Vocabulary `VIZ_TERMS`. -/
def VIZ_TERMS : List String :=
  ["show", "plot", "chart", "visualise", "visualize", "draw", "map", "graph",
   "heatmap", "bar chart", "line chart", "pie", "scatter", "choropleth",
   "dashboard", "table", "pivot"]

/-- Vocabulary `DOWNLOAD_TERMS`. -/
def DOWNLOAD_TERMS : List String :=
  ["download", "export", "save as", "csv", "xlsx", "xls", "json", "png",
   "jpg", "jpeg", "svg", "pdf", "api", "share", "embed", "link"]

/-- Vocabulary `FILTER_TERMS`. -/
def FILTER_TERMS : List String :=
  ["country", "eu", "eu27", "member state", "sector", "nace", "household",
   "households", "industry", "transport", "services", "residential", "fuel",
   "product", "unit", "per capita", "nuts", "nuts2", "nuts3", "region",
   "by country", "by sector"]

/-- Vocabulary `TIME_KEYWORDS`. -/
def TIME_KEYWORDS : List String :=
  ["monthly", "quarterly", "annual", "annualy", "annually", "trend",
   "over time", "ytd", "last year", "this year", "latest", "most recent",
   "current", "q1", "q2", "q3", "q4", "seasonal", "winter", "summer",
   "spring", "autumn", "fall"]

/-- Vocabulary `METADATA_TERMS`. -/
def METADATA_TERMS : List String :=
  ["definition", "metadata", "methodology", "methodologies", "calculated",
   "computed", "source", "data source", "dataset", "table code", "frequency",
   "release", "last update", "revision"]

/-- Vocabulary `COMPARE_TERMS`. -/
def COMPARE_TERMS : List String :=
  ["compare", "vs", "versus", "difference between", "rank", "ranking", "top",
   "bottom", "lowest", "highest"]

/-- Vocabulary `HELP_TERMS`. -/
def HELP_TERMS : List String :=
  ["help", "help me", "can you help", "how to use", "how do i", "how do you",
   "what can you do", "commands", "instructions", "guide", "guidelines",
   "manual", "examples", "show me", "usage", "need help", "need assistance",
   "support", "how does this work", "how it works"]

/-- Vocabulary `GREETING_BASE`. -/
def GREETING_BASE : List String :=
  ["hi", "hello", "hey", "howdy", "hiya", "yo", "greetings", "welcome",
   "salutations", "sup", "heya", "heyo",
   "gm", "ga", "ge", "gday", "g" ++ ap ++ "day", "g day", "gidday",
   "good morning", "good afternoon", "good day",
   "morning", "afternoon", "evening",
   "hi there", "hello there", "hey there",
   "hi all", "hi everyone", "hi folks", "hi team", "hi guys",
   "hello all", "hello everyone", "hello folks", "hello team", "hello guys",
   "hey all", "hey everyone", "hey folks", "hey team", "hey guys",
   "hey yall", "hey y" ++ ap ++ "all",
   "how" ++ ap ++ "s it going", "hows it going", "how is it going",
   "how s it going",
   "how are you", "how are ya", "how are yall", "how are y" ++ ap ++ "all",
   "how are u",
   "how are you doing", "how you doing",
   "how are things", "how goes it", "how" ++ ap ++ "s everything",
   "hows everything", "how s everything",
   "how ya doing", "how ya doin", "how you doin", "how u doing",
   "what" ++ ap ++ "s up", "whats up", "what s up", "wassup", "wazzup",
   "whassup", "waddup", "what up",
   "what" ++ ap ++ "s good", "whats good", "what s good",
   "what" ++ ap ++ "s new", "whats new", "what s new",
   "what" ++ ap ++ "s happening", "whats happening", "what s happening",
   "what" ++ ap ++ "s happenin", "whats happenin",
   "what" ++ ap ++ "s poppin", "whats poppin", "what s poppin",
   "long time no see", "it" ++ ap ++ "s been a while", "its been a while",
   "it s been a while",
   "nice to see you"]

/-- Vocabulary `THANKS_BASE`. -/
def THANKS_BASE : List String :=
  ["thanks", "thank", "thank you", "thank u",
   "thx", "ty", "tnx", "tks",
   "thanks a lot", "thanks so much", "thanks very much",
   "thank you so much", "thank you very much",
   "many thanks", "much obliged",
   "appreciate", "appreciate it", "really appreciate", "greatly appreciate",
   "cheers", "props", "big thanks", "big thank you"]

/-- Vocabulary `FAREWELL_BASE`. -/
def FAREWELL_BASE : List String :=
  ["bye", "goodbye", "farewell", "adieu", "cheerio", "later", "peace", "ciao",
   "cya", "c ya", "ttyl", "gtg", "g2g", "gotta go", "got to go", "gotta run",
   "got to run",
   "brb", "bbl", "bb", "bai", "buh-bye", "buhbye",
   "good night", "goodnight", "gn",
   "bye bye", "bye-bye", "byebye",
   "see you", "see ya", "see you later", "see ya later", "see you soon",
   "see ya soon",
   "see you tomorrow", "see ya tomorrow", "see you around", "see ya around",
   "catch you later", "catch ya later", "talk to you later",
   "talk to ya later",
   "take care", "have a good day", "have a great day", "have a nice day",
   "have a good one", "have a great one", "have a nice one",
   "have a wonderful day", "have a good night",
   "until next time", "until we meet again", "till next time", "until later",
   "till tomorrow",
   "laters", "l8r", "laterz", "later gator", "catch you on the flip side",
   "i m out", "i" ++ ap ++ "m out", "im out", "i m off", "i" ++ ap ++ "m off",
   "im off", "i m leaving", "i" ++ ap ++ "m leaving", "im leaving",
   "i m going", "i" ++ ap ++ "m going", "im going",
   "gotta bounce", "got to bounce",
   "good luck", "best wishes", "all the best", "take it easy",
   "stay safe", "be well", "be safe"]

/-- Vocabulary `AMBIGUOUS_BASE`. -/
def AMBIGUOUS_BASE : List String :=
  ["good evening", "night", "nite"]

/-- Vocabulary `GROUP_ADDRESS_WORDS`. -/
def GROUP_ADDRESS_WORDS : List String :=
  ["everyone", "folks", "all", "team", "guys", "yall", "y" ++ ap ++ "all"]

/-- Vocabulary `FAREWELL_INDICATORS`. -/
def FAREWELL_INDICATORS : List String :=
  ["goodbye", "bye", "see you", "see ya", "take care", "later", "leaving",
   "going"]

/-- Vocabulary `COUNTRY_NAMES`. -/
def COUNTRY_NAMES : List String :=
  ["eu", "eu27", "euro area", "european union", "belgium", "france",
   "germany", "netherlands", "luxembourg", "spain", "portugal", "italy",
   "ireland", "denmark", "sweden", "finland", "poland", "czechia",
   "czech republic", "slovakia", "slovenia", "hungary", "austria", "romania",
   "bulgaria", "greece", "croatia", "estonia", "latvia", "lithuania", "malta",
   "cyprus"]

/-- Vocabulary `ISO2`. -/
def ISO2 : List String :=
  ["at", "be", "bg", "hr", "cy", "cz", "dk", "ee", "fi", "fr", "de", "el",
   "gr", "hu", "ie", "it", "lv", "lt", "lu", "mt", "nl", "pl", "pt", "ro",
   "sk", "si", "es", "se"]

/- ===================== Special-purpose scanners ===================== -/

/-- ASCII digit test (`\d`). -/
def isDigitC (c : Char) : Bool :=
  c ≥ Char.ofNat 48 && c ≤ Char.ofNat 57

/-- Lower-case ASCII letter test (`[a-z]`). -/
def isLowerAZ (c : Char) : Bool :=
  c ≥ Char.ofNat 97 && c ≤ Char.ofNat 122

/-- Whether `\b(19|20)\d{2}\b` matches at the head of `t`. -/
def yearHere (t : List Char) (prevW : Bool) : Bool :=
  match t with
  | a :: b :: c :: d :: rest =>
    !prevW && ((a == '1' && b == '9') || (a == '2' && b == '0')) &&
    isDigitC c && isDigitC d && !headWordness rest
  | _ => false

/-- Whether `\b(19|20)\d{2}\b` matches anywhere in `t` (time-change pattern 1
and the bare-year heuristic of the scorer). -/
def hasYear : List Char → Bool → Bool
  | [], _ => false
  | c :: rest, prevW => yearHere (c :: rest) prevW || hasYear rest (isWordChar c)

/-- Consume `(19|20)\d{2}` at the head of `t`. -/
def eatYear (t : List Char) : Option (List Char) :=
  match t with
  | a :: b :: c :: d :: rest =>
    if ((a == '1' && b == '9') || (a == '2' && b == '0')) &&
        isDigitC c && isDigitC d then some rest else none
  | _ => none

/-- Whether the year-range pattern
`\b(from|since|between)\s+(19|20)\d{2}\s+(to|and|[-–—])\s*(19|20)\d{2}\b`
matches at the head of `t` (whitespace runs in the text are already single
spaces). -/
def yearRangeHere (t : List Char) (prevW : Bool) : Bool :=
  !prevW &&
  (["from", "since", "between"].any fun st =>
    match eatChars (st.toList ++ [Char.ofNat 32]) t with
    | none => false
    | some r1 =>
      match eatYear r1 with
      | none => false
      | some r2 =>
        match r2 with
        | sp :: r3 =>
          sp == Char.ofNat 32 &&
          ((["to", "and"].any fun cn =>
              match eatChars cn.toList r3 with
              | none => false
              | some r4 => yearAfterOptSpace r4) ||
           (match r3 with
            | d :: r4 =>
              (d == Char.ofNat 45 || d == enDash || d == emDash) &&
              yearAfterOptSpace r4
            | [] => false))
        | [] => false)
where
  /-- Consume `\s*(19|20)\d{2}\b` ( `\s*` is at most one space here). -/
  yearAfterOptSpace (r : List Char) : Bool :=
    let r := match r with
      | sp :: rr => if sp == Char.ofNat 32 then rr else sp :: rr
      | [] => []
    match eatYear r with
    | none => false
    | some rest => !headWordness rest

/-- Whether the year-range pattern matches anywhere in `t`. -/
def hasYearRange : List Char → Bool → Bool
  | [], _ => false
  | c :: rest, prevW =>
    yearRangeHere (c :: rest) prevW || hasYearRange rest (isWordChar c)

/-- Whether `\b(?:q[1-4]\s*(19|20)\d{2}|(19|20)\d{2}\s*q[1-4])\b` matches at
the head of `t`. -/
def quarterHere (t : List Char) (prevW : Bool) : Bool :=
  !prevW &&
  ((match t with
    | q :: d :: rest =>
      q == 'q' && (d ≥ '1' && d ≤ '4') &&
      (match (match rest with
              | sp :: rr => if sp == Char.ofNat 32 then rr else sp :: rr
              | [] => []) with
       | r =>
         match eatYear r with
         | none => false
         | some rest2 => !headWordness rest2)
    | _ => false) ||
   (match eatYear t with
    | none => false
    | some r =>
      match (match r with
             | sp :: rr => if sp == Char.ofNat 32 then rr else sp :: rr
             | [] => []) with
      | q :: d :: rest2 =>
        q == 'q' && (d ≥ '1' && d ≤ '4') && !headWordness rest2
      | _ => false))

/-- Whether the quarter pattern matches anywhere in `t`. -/
def hasQuarter : List Char → Bool → Bool
  | [], _ => false
  | c :: rest, prevW =>
    quarterHere (c :: rest) prevW || hasQuarter rest (isWordChar c)

/-- Whether `\b(top|bottom|lowest|highest)\s*\d+\b` matches at the head of
`t`. -/
def rankNumHere (t : List Char) (prevW : Bool) : Bool :=
  !prevW &&
  (["top", "bottom", "lowest", "highest"].any fun w =>
    match eatChars w.toList t with
    | none => false
    | some r =>
      let r := match r with
        | sp :: rr => if sp == Char.ofNat 32 then rr else sp :: rr
        | [] => []
      match r with
      | d :: rest =>
        isDigitC d && !headWordness (rest.dropWhile isDigitC)
      | [] => false)

/-- Whether the ranking pattern matches anywhere in `t`. -/
def hasRankNum : List Char → Bool → Bool
  | [], _ => false
  | c :: rest, prevW =>
    rankNumHere (c :: rest) prevW || hasRankNum rest (isWordChar c)

/-- Accumulator pass for `wordRuns`: `start`/`acc` hold the current word run
(reversed) while scanning. -/
def wordRunsAux : List Char → Nat → Nat → List Char → List (Nat × List Char)
  | [], _, start, acc => if acc.isEmpty then [] else [(start, acc.reverse)]
  | c :: rest, pos, start, acc =>
    if isWordChar c then
      if acc.isEmpty then wordRunsAux rest (pos + 1) pos [c]
      else wordRunsAux rest (pos + 1) start (c :: acc)
    else
      (if acc.isEmpty then [] else [(start, acc.reverse)]) ++
        wordRunsAux rest (pos + 1) start []

/-- Maximal word-character runs of `t` with their start positions. -/
def wordRuns (t : List Char) : List (Nat × List Char) :=
  wordRunsAux t 0 0 []

/-- Whether `\b(compare|vs|versus)\b.*\b([a-z][a-z]+)\b.*\b([a-z][a-z]+)\b`
matches `t`: a compare word followed by two all-letter tokens of length at
least two. -/
def compareTwoWords (t : List Char) : Bool :=
  match firstWordEnd ["compare", "vs", "versus"] t with
  | none => false
  | some e =>
    ((wordRuns t).filter fun pr =>
      e ≤ pr.1 && pr.2.length ≥ 2 && pr.2.all isLowerAZ).length ≥ 2

/-- Whether `\bhttps?:\/\/\S+\.(ext1|…)\b` matches starting right after an
already-consumed scheme: scan the non-space run for `.ext` with a trailing
boundary, at least one `\S` consumed before the dot. -/
def urlExtTail (exts : List String) : List Char → Bool → Bool
  | [], _ => false
  | c :: r, consumed =>
    (consumed && exts.any fun e =>
      match eatChars (Char.ofNat 46 :: e.toList) (c :: r) with
      | none => false
      | some r2 => !headWordness r2) ||
    (!isWsChar c && urlExtTail exts r true)

/-- Whether `\bhttps?:\/\/\S+\.(csv|xlsx?|json|png|jpe?g|svg|pdf)\b` matches
at the head of `t`. -/
def urlExtHere (exts : List String) (t : List Char) (prevW : Bool) : Bool :=
  !prevW &&
  (match eatChars "http".toList t with
   | none => false
   | some r1 =>
     let r1 := match r1 with
       | c :: rr => if c == 's' then rr else c :: rr
       | [] => []
     match eatChars "://".toList r1 with
     | none => false
     | some r2 => urlExtTail exts r2 false)

/-- Whether the URL-with-extension pattern matches anywhere in `t`. -/
def hasUrlExt (exts : List String) : List Char → Bool → Bool
  | [], _ => false
  | c :: rest, prevW =>
    urlExtHere exts (c :: rest) prevW || hasUrlExt exts rest (isWordChar c)

/-- Separator class `[\s,.:;–—-]` of the group-address greeting pattern. -/
def isGroupSep (c : Char) : Bool :=
  isWsChar c || c == Char.ofNat 44 || c == Char.ofNat 46 ||
  c == Char.ofNat 58 || c == Char.ofNat 59 || c == enDash || c == emDash ||
  c == Char.ofNat 45

/-- Whether `\b(hi|hello|hey)[\s,.:;–—-]+(all|everyone|team|folks|y'all…)\b`
matches at the head of `t`. -/
def groupGreetHere (addr : List String) (t : List Char) (prevW : Bool) : Bool :=
  !prevW &&
  (["hi", "hello", "hey"].any fun g =>
    match eatChars g.toList t with
    | none => false
    | some r1 =>
      match r1 with
      | c :: r2 =>
        isGroupSep c &&
        (addr.any fun a =>
          match eatChars a.toList (r2.dropWhile isGroupSep) with
          | none => false
          | some rest => !headWordness rest)
      | [] => false)

/-- Whether the group-address greeting pattern matches anywhere in `t`. -/
def hasGroupGreet (addr : List String) : List Char → Bool → Bool
  | [], _ => false
  | c :: rest, prevW =>
    groupGreetHere addr (c :: rest) prevW ||
    hasGroupGreet addr rest (isWordChar c)

/-- Minimal end position of a literal occurrence of `w` preceded by a word
boundary (no condition at the end; used for `\bhow do i .*`). -/
def firstLitPreBEnd (w : List Char) : List Char → Bool → Nat → Option Nat
  | [], _, _ => none
  | c :: rest, prevW, pos =>
    if (match w with
        | wc :: _ => (prevW != isWordChar wc) &&
            (eatChars w (c :: rest)).isSome
        | [] => false) then
      some (pos + w.length)
    else firstLitPreBEnd w rest (isWordChar c) (pos + 1)

/-- Whether some literal of `ws` occurs starting at or after `from0` with a
word boundary after it (no condition at the start; used for `.* (find|…)\b`).
-/
def anyLitPostBFrom (ws : List String) : List Char → Nat → Bool
  | [], _ => false
  | c :: rest, from0 =>
    (from0 == 0 && ws.any fun w =>
      match eatChars w.toList (c :: rest) with
      | none => false
      | some r =>
        (match w.toList.getLast? with
         | some lc => isWordChar lc
         | none => false) != headWordness r) ||
    anyLitPostBFrom ws rest (from0 - 1)

/-- Whether some literal of `ws` occurs in `t` preceded by a word boundary
(no condition at the end; used by the farewell-indicator pattern of
`resolveAmbiguous`, which has no trailing `\b`). -/
def anyLitPreB (ws : List String) : List Char → Bool → Bool
  | [], _ => false
  | c :: rest, prevW =>
    (ws.any fun w =>
      match w.toList with
      | wc :: wcs =>
        (prevW != isWordChar wc) && (eatChars (wc :: wcs) (c :: rest)).isSome
      | [] => false) ||
    anyLitPreB ws rest (isWordChar c)

/-- Whether `t` ends with `w` preceded by a word boundary (`\bw$`). -/
def endsWithWordB (w : List Char) (t : List Char) : Bool :=
  match w with
  | [] => false
  | wc :: _ =>
    t.length ≥ w.length &&
    t.drop (t.length - w.length) == w &&
    ((match t.get? (t.length - w.length - 1) with
      | some c => if t.length == w.length then false else isWordChar c
      | none => false) != isWordChar wc)

/-- Whether the last character of `t` is `?`. -/
def endsQ (t : List Char) : Bool :=
  match t.getLast? with
  | some c => c == Char.ofNat 63
  | none => false

/- ============== Precompiled matchers (`precompiledMatchers.ts`) ============ -/

/-- Double quote as a one-character string (normalised apostrophes become this
character, which several troubleshooting pattern alternatives anticipate). -/
def dq : String := String.mk [qD]

/-- Matcher `RX.energy`. -/
def rxEnergy (t : List Char) : Bool := anyWord ENERGY_TERMS t

/-- Matcher `RX.measure`. -/
def rxMeasure (t : List Char) : Bool := anyWord MEASURE_TERMS t

/-- Matcher `RX.viz`. -/
def rxViz (t : List Char) : Bool := anyWord VIZ_TERMS t

/-- Matcher `RX.download`. -/
def rxDownload (t : List Char) : Bool := anyWord DOWNLOAD_TERMS t

/-- Matcher `RX.filter`. -/
def rxFilter (t : List Char) : Bool := anyWord FILTER_TERMS t

/-- Matcher `RX.timeKw`. -/
def rxTimeKw (t : List Char) : Bool := anyWord TIME_KEYWORDS t

/-- Matcher `RX.metadata`. -/
def rxMetadata (t : List Char) : Bool := anyWord METADATA_TERMS t

/-- Matcher `RX.compare`. -/
def rxCompare (t : List Char) : Bool := anyWord COMPARE_TERMS t

/-- Matcher `RX.help`. -/
def rxHelp (t : List Char) : Bool := anyWord HELP_TERMS t

/-- Matcher `RX.greeting` (phrase matcher over `GREETING_BASE`; `\s+` between
phrase words is a single space on normalised text). -/
def rxGreeting (t : List Char) : Bool := anyWord GREETING_BASE t

/-- Matcher `RX.thanks`. -/
def rxThanks (t : List Char) : Bool := anyWord THANKS_BASE t

/-- Matcher `RX.farewell`. -/
def rxFarewell (t : List Char) : Bool := anyWord FAREWELL_BASE t

/-- Matcher `RX.ambiguous`. -/
def rxAmbiguous (t : List Char) : Bool := anyWord AMBIGUOUS_BASE t

/-- Matcher `RX.country`. -/
def rxCountry (t : List Char) : Bool := anyWord COUNTRY_NAMES t

/-- Matcher `RX.iso2`. -/
def rxIso2 (t : List Char) : Bool := anyWord ISO2 t

/- ===================== Patterns (`data/patterns.ts`) ===================== -/

/-- Pattern of the source table: a regular expression with its weight, or a
scoring function (whose `weight` field the scorer ignores). -/
inductive Pat where
  | rx (m : List Char → Bool) (weight : Int)
  | fn (f : List Char → Int)

/-- Contribution of one pattern to an intent score: a matching regular
expression adds `weight`; a scoring function adds its value when positive. -/
def patContrib (t : List Char) : Pat → Int
  | .rx m w => if m t then w else 0
  | .fn f => if 0 < f t then f t else 0

/-- Alternatives of `["']?n["']?t` (the source regex answers for normalised
apostrophes, which `normalize` turns into double quotes). -/
def ntVariants : List String :=
  ["nt", dq ++ "nt", "n" ++ dq ++ "t", dq ++ "n" ++ dq ++ "t",
   ap ++ "nt", "n" ++ ap ++ "t", ap ++ "n" ++ ap ++ "t",
   dq ++ "n" ++ ap ++ "t", ap ++ "n" ++ dq ++ "t"]

/-- Verb alternatives of the two does-not-work troubleshooting patterns. -/
def tsVerbs : List String :=
  ["work", "load", "function", "start", "open", "connect", "display", "show",
   "appear", "run"]

/-- Expansion of `\b(does(?:["']?n["']?t| not)\s+(?:work|…))\b`. -/
def tsDoesntPhrases : List String :=
  tsVerbs.flatMap fun v =>
    (ntVariants.map fun nv => "does" ++ nv ++ " " ++ v) ++ ["does not " ++ v]

/-- Expansion of `\bdoes\s+t\s+(?:work|…)\b`. -/
def tsDoesTPhrases : List String := tsVerbs.map fun v => "does t " ++ v

/-- Word list of troubleshooting pattern 3 (`can(?:["']?t|not)` etc. expanded:
the optional `["']` yields the bare `cant` as well as the quoted forms; the
`won't`/`doesn't` entries carry a literal ASCII apostrophe exactly as in
the source). -/
def tsCueWords : List String :=
  ["cant", "can" ++ dq ++ "t", "can" ++ ap ++ "t", "cannot", "fail", "failed",
   "fails", "error", "exception", "crash", "crashed", "crashes", "timeout",
   "broken", "bug", "slow", "stuck", "load issue", "loading issue",
   "permission denied", "unauthorized", "problem", "issue", "not working",
   "won" ++ ap ++ "t work", "doesn" ++ ap ++ "t work"]

/-- Second-group word list of download pattern 2 and the URL pattern
(`csv|xlsx?|json|png|jpe?g|svg|pdf`). -/
def fileExts : List String :=
  ["csv", "xlsx", "xls", "json", "png", "jpeg", "jpg", "svg", "pdf"]

/-- First-group word list of data-query patterns 1 (`what|how much|…`). -/
def dqLead : List String :=
  ["what", "how much", "how many", "show me", "give me", "value of",
   "latest", "evolution", "time series", "trend", "increase", "decrease"]

/-- Second-group word list of data-query pattern 1 (energy/measure terms with
the optional plurals expanded). -/
def dqTerms : List String :=
  ["electricity", "gas", "natural gas", "renewables", "renewable", "wind",
   "solar", "hydro", "oil", "petroleum", "coal", "lignite", "biomass",
   "biofuel", "heat", "hydrogen", "nuclear", "emissions", "emission", "co2",
   "ghg", "price", "prices", "tariffs", "tariff", "consumption", "production",
   "generation", "imports", "import", "exports", "export", "capacity",
   "demand", "kwh", "mwh", "gwh", "twh", "toe", "ktoe"]

/-- First-group word list of data-query pattern 6. -/
def dqPairLeft : List String :=
  ["electricity", "gas", "natural gas", "renewables", "renewable", "wind",
   "solar", "hydro", "oil", "petroleum", "coal", "lignite", "biomass",
   "biofuel", "heat", "hydrogen", "nuclear", "emissions", "emission", "co2",
   "ghg", "price", "prices", "tariffs", "tariff", "consumption", "production",
   "generation", "capacity", "demand"]

/-- Second-group word list of data-query pattern 6. -/
def dqPairRight : List String :=
  ["consumption", "production", "prices", "price", "emissions", "emission",
   "capacity", "generation", "demand", "intensity", "efficiency"]

/-- Month word list of time-change pattern 5. -/
def monthWords : List String :=
  ["january", "february", "march", "april", "may", "june", "july", "august",
   "september", "october", "november", "december", "jan", "feb", "mar",
   "apr", "jun", "jul", "aug", "sep", "sept", "oct", "nov", "dec"]

/-- Second-group word list of filter-change pattern 4
(`country|sector|…|nuts\d?`). -/
def filterNouns : List String :=
  ["country", "sector", "fuel", "product", "unit", "nace", "household",
   "households", "industry", "transport", "services", "residential",
   "region", "nuts", "nuts0", "nuts1", "nuts2", "nuts3", "nuts4", "nuts5",
   "nuts6", "nuts7", "nuts8", "nuts9"]

/-- Verb list of viz pattern 2 and command pattern 1 shared alternatives. -/
def vizVerbs : List String :=
  ["show", "plot", "chart", "visualise", "visualize", "draw", "map", "graph",
   "heatmap", "bar chart", "line chart", "pie", "scatter", "choropleth",
   "dashboard", "table", "pivot"]

/-- Expansion of the conversational-opener greeting pattern
(`how's it going | how are you | what's up | wassup | …`). -/
def convOpeners : List String :=
  (["hows", "how" ++ ap ++ "s", "how" ++ rq ++ "s"].flatMap fun h =>
    [h ++ " it going", h ++ " things", h ++ " everything"]) ++
  ["how are you", "how are ya", "how are yall", "how are y" ++ ap ++ "all",
   "how are y" ++ rq ++ "all", "how you doing", "how ya doin"] ++
  (["whats", "what" ++ ap ++ "s", "what" ++ rq ++ "s"].flatMap fun w =>
    [w ++ " up", w ++ " new", w ++ " good", w ++ " happening",
     w ++ " happenin", w ++ " poppin"]) ++
  ["wasup", "wassup", "wazzup", "waddup", "what up"]

/-- Expansion of the reconnection greeting pattern. -/
def reconnectPhrases : List String :=
  ["long time no see", "its been a while", "it" ++ ap ++ "s been a while",
   "it" ++ rq ++ "s been a while"]

/-- Expansion of `i(?:'|')?m` (`im`, with ASCII or curly apostrophe). -/
def imVariants : List String := ["im", "i" ++ ap ++ "m", "i" ++ rq ++ "m"]

/-- Expansion of the leaving-phrase farewell pattern. -/
def leavingPhrases : List String :=
  (imVariants.flatMap fun im =>
    [im ++ " out", im ++ " off", im ++ " leaving", im ++ " going"]) ++
  ["gotta go", "gotta run", "gotta bounce", "got to go", "got to run",
   "got to bounce"]

/-- Expansion of `have a (good|…) (day|…)`. -/
def haveAPhrases : List String :=
  (["good", "great", "nice", "wonderful", "lovely"].flatMap fun x =>
    (["day", "night", "one", "time", "weekend"].map fun y =>
      "have a " ++ x ++ " " ++ y))

/-- Expansion of `(until|till) (next time|we meet again|later|tomorrow)`. -/
def untilPhrases : List String :=
  (["until", "till"].flatMap fun u =>
    (["next time", "we meet again", "later", "tomorrow"].map fun v =>
      u ++ " " ++ v))

/-- Expansion of `let(?:'|')?s` with ASCII or curly apostrophe. -/
def letsVariants : List String := ["lets", "let" ++ ap ++ "s", "let" ++ rq ++ "s"]

/-- Expansion of agreement-continuation affirmative pattern 5. -/
def agreeContPhrases : List String :=
  ["that works", "makes sense", "fine"] ++
  (letsVariants.flatMap fun l =>
    [l ++ " it", l ++ " do it", l ++ " go", l ++ " start"]) ++
  ["count me in"] ++ (imVariants.map fun im => im ++ " in") ++
  ["sign me up"]

/-- Expansion of `don(?:'|')?t`. -/
def dontVariants : List String :=
  ["dont", "don" ++ ap ++ "t", "don" ++ rq ++ "t"]

/-- Expansion of `can(?:'|')?t` / `won(?:'|')?t` (the optional `i\s+` prefix
of the source pattern is redundant for matchability: whenever `i can't`
occurs, `can't` alone matches at a word boundary). -/
def cantWontVariants : List String :=
  ["cant", "can" ++ ap ++ "t", "can" ++ rq ++ "t",
   "wont", "won" ++ ap ++ "t", "won" ++ rq ++ "t"]

/-- Expansion of the dismissal negative pattern 6. -/
def dismissalPhrases : List String :=
  ["never mind", "nevermind", "forget it"] ++
  (imVariants.map fun im => im ++ " not") ++
  (["id", "i" ++ ap ++ "d", "i" ++ rq ++ "d"].map fun i => i ++ " rather not") ++
  ["nuh uh", "nada", "no sir", "no maam"]

/-- Expansion of the unknown/uncertain negative pattern 7. -/
def unsurePhrases : List String :=
  (dontVariants.map fun d => d ++ " know") ++
  (["cant", "can" ++ ap ++ "t", "can" ++ rq ++ "t"].map fun c => c ++ " say") ++
  ["not sure", "unsure"]

/-- Greeting emoji characters. -/
def greetEmoji : List Char :=
  [Char.ofNat 128075, Char.ofNat 128522, Char.ofNat 128578, Char.ofNat 128512,
   Char.ofNat 128515, Char.ofNat 128513, Char.ofNat 128516, Char.ofNat 129303]

/-- Fuzzy greeting vocabulary of the functional greeting pattern. -/
def fuzzyGreetVocab : List String :=
  ["hi", "hello", "hey", "howdy", "hiya", "yo", "heya", "heyo", "sup"]

/- ===================== Damerau-Levenshtein & fuzzy hits ===================== -/

/-- One DP row of the Damerau-Levenshtein distance (adjacent
transpositions), walking the previous rows in step with the columns: at
column j the heads of `prevTail` and `ppTail` are `prev[j-1]` and
`prevPrev[j-2]`, `lastCur` is the entry just written, `bjm1` the previous
character of `b` (none at j = 1, so the transposition case needs j > 1),
and `useTrans` says i > 1. Cell recurrence exactly as the matrix loops of
the source compute it. -/
def damRowAux (ai aim1 : Char) (useTrans : Bool) :
    List Char → Option Char → List Nat → List Nat → Nat → List Nat
  | [], _, _, _, _ => []
  | bj :: brest, bjm1, prevTail, ppTail, lastCur =>
    match prevTail with
    | [] => []
    | pjm1 :: ptail =>
      let cost : Nat := if ai == bj then 0 else 1
      let del := ptail.headD 0 + 1
      let ins := lastCur + 1
      let sub := pjm1 + cost
      let base := Nat.min del (Nat.min ins sub)
      let best := match ppTail, bjm1 with
        | ppjm2 :: _, some bprev =>
          if useTrans && ai == bprev && aim1 == bj then
            Nat.min base (ppjm2 + 1)
          else base
        | _, _ => base
      let ppNext := match bjm1 with
        | some _ => ppTail.tail
        | none => ppTail
      best :: damRowAux ai aim1 useTrans brest (some bj) ptail ppNext best

/-- Outer DP loop over the characters of `a` (row index i, 1-based),
carrying the previous two rows and the previous character of `a`. -/
def damLoop (b : List Char) : List Char → Option Char → Nat → List Nat →
    List Nat → List Nat
  | [], _, _, _, prev => prev
  | ai :: arest, aim1, i, prevPrev, prev =>
    let cur := i :: damRowAux ai (aim1.getD (Char.ofNat 0)) aim1.isSome b
      none prev prevPrev i
    damLoop b arest (some ai) (i + 1) prev cur

/-- Damerau-Levenshtein distance with adjacent transpositions, exactly as the
dynamic programs of the source compute it (row 0 is 0..m, row i starts
with i, each cell is min of deletion, insertion, substitution and, when
the two adjacent characters are swapped, transposition). -/
def damerau (a b : List Char) : Nat :=
  if a.length == 0 then b.length
  else if b.length == 0 then a.length
  else (damLoop b a none 1 [] (List.range (b.length + 1))).getD b.length 0

/-- Alphanumeric test modelling `\p{L}\p{N}` on the ASCII range the embedded
texts use (JavaScript `\w` additionally contains the underscore; the split
class of `shortTokenize` does not). -/
def isAlnumTok (c : Char) : Bool := isLowerAZ c || isDigitC c ||
  (c ≥ Char.ofNat 65 && c ≤ Char.ofNat 90)

/-- Accumulator pass for `alnumRuns`. -/
def alnumRunsAux : List Char → List Char → List (List Char)
  | [], acc => if acc.isEmpty then [] else [acc.reverse]
  | c :: rest, acc =>
    if isAlnumTok c then alnumRunsAux rest (c :: acc)
    else (if acc.isEmpty then [] else [acc.reverse]) ++ alnumRunsAux rest []

/-- Maximal alphanumeric runs of `t` (`split(/[^\p{L}\p{N}]+/u)` with
empties removed). -/
def alnumRuns (t : List Char) : List (List Char) :=
  alnumRunsAux t []

/-- Tokenisation used by the fuzzy greeting pattern (`shortTokenize`): at most
64 alphanumeric runs. -/
def shortTokenize (t : List Char) : List (List Char) :=
  (alnumRuns t).take 64

/-- Fuzzy token hit for the tiny greeting vocabulary (`fuzzyTokenHit`):
some token of length 2..10 is within distance `maxDist` of some vocabulary
word. -/
def fuzzyTokenHit (t : List Char) (vocab : List String) (maxDist minLen : Nat) :
    Bool :=
  ((shortTokenize t).filter fun tok =>
      minLen ≤ tok.length && tok.length ≤ 10).any fun tok =>
    vocab.any fun v => damerau tok v.toList ≤ maxDist

/- ===================== The pattern table ===================== -/

/-- Word list of affirmative pattern 1. -/
def affCoreWords : List String :=
  ["yes", "yeah", "yep", "yup", "yea", "aye", "yah", "okay", "ok", "alright",
   "all right", "certainly", "definitely", "absolutely", "indeed", "correct",
   "right", "true", "exactly"]

/-- Expansion of `(sounds|looks|seems)\s+(good|great|fine|perfect|right)`. -/
def soundsGoodPhrases : List String :=
  (["sounds", "looks", "seems"].flatMap fun s =>
    (["good", "great", "fine", "perfect", "right"].map fun g => s ++ " " ++ g))

/-- Word list of command pattern 1 (`^\s*(show|…)\b`). -/
def commandVerbs : List String :=
  ["show", "plot", "chart", "visualise", "visualize", "draw", "map", "graph",
   "table", "list", "filter", "set", "change", "update", "select", "open",
   "close", "reset", "download", "export", "share", "explain", "define",
   "calculate", "generate", "summarize", "rank"]

/-- Word list of question pattern 2 (`^\s*(who|…)\b`). -/
def questionStarters : List String :=
  ["who", "what", "when", "where", "why", "how", "which", "can", "could",
   "do", "does", "is", "are", "will", "would", "should", "may", "might",
   "have", "has", "did"]

/-- The pattern table `PATTERNS` of `data/patterns.ts`: for each intent its
ordered `(pattern, weight)` list (`statement` and `invalid` have none). -/
def PATTERNS : Intent → List Pat
  | .troubleshooting =>
    [.rx (fun t => anyWord tsDoesntPhrases t) 35,
     .rx (fun t => anyWord tsDoesTPhrases t) 35,
     .rx (fun t => anyWord tsCueWords t) 32]
  | .download_request =>
    [.rx rxDownload 26,
     .rx (fun t => wordThenWord ["save", "export", "download"] fileExts t) 30,
     .rx (fun t => anyWord ["api", "endpoint", "link", "url"] t) 16,
     .rx (fun t => hasUrlExt fileExts t false) 30]
  | .viz_request =>
    [.rx rxViz 27,
     .rx (fun t =>
       wordThenWord ["can", "could", "would", "please", "kindly"] vizVerbs t) 22,
     .fn (fun t => if rxEnergy t && rxViz t then 31 else 0)]
  | .data_query =>
    [.rx (fun t => wordThenWord dqLead dqTerms t) 26,
     .fn (fun t => if endsQ t && rxEnergy t then 22 else 0),
     .rx rxEnergy 9,
     .fn (fun t => if rxEnergy t && rxMeasure t then 24 else 0),
     .fn (fun t => if rxEnergy t && (rxCountry t || rxFilter t) then 18 else 0),
     .rx (fun t => wordThenWord dqPairLeft dqPairRight t) 20]
  | .filter_change =>
    [.rx rxFilter 19,
     .rx rxCountry 19,
     .rx rxIso2 16,
     .rx (fun t => anyWord
       (["by", "for", "in"].flatMap fun p =>
         filterNouns.map fun n => p ++ " " ++ n) t) 21,
     .rx (fun t => anyWord ["percapita", "per capita", "per-capita"] t) 16,
     .rx (fun t => anyWord ["eu27", "eu 27", "eu-27"] t) 14]
  | .time_change =>
    [.rx (fun t => hasYear t false) 18,
     .rx (fun t => hasYearRange t false) 23,
     .rx (fun t => hasQuarter t false) 20,
     .rx rxTimeKw 18,
     .rx (fun t => anyWord monthWords t) 14]
  | .metadata_request =>
    [.rx rxMetadata 29,
     .rx (fun t => wordThenWord ["how is", "how are", "how was", "how were"]
       ["calculated", "computed", "defined", "measured", "collected",
        "estimated", "compiled", "aggregated", "imputed"] t) 28,
     .rx (fun t =>
       anyWord ["where does", "what is the source", "data source"] t) 20,
     .rx (fun t => anyWord ["definition of"] t) 22]
  | .compare_request =>
    [.rx rxCompare 28,
     .rx (fun t => startsWithWord ["compare"] t) 8,
     .rx compareTwoWords 20,
     .rx (fun t => hasRankNum t false) 20]
  | .help =>
    [.rx rxHelp 22,
     .rx (fun t => (match firstLitPreBEnd ("how do i ").toList t false 0 with
        | none => false
        | some e => anyLitPostBFrom [" find", " get", " see"] t e) ||
        anyWord ["examples"] t) 16]
  | .greeting =>
    [.rx rxGreeting 55,
     .rx (fun t => anyWord
       ["good morning", "good afternoon", "good evening", "good day"] t) 25,
     .rx (fun t =>
       standaloneWord ["morning", "afternoon", "evening", "night", "day"] t) 23,
     .rx (fun t => anyWord
       ["gm", "ga", "ge", "gday", "g" ++ ap ++ "day", "g" ++ rq ++ "day",
        "gidday"] t) 22,
     .rx (fun t => anyWord ["hi there", "hello there", "hey there"] t) 20,
     .rx (fun t => hasGroupGreet
       ["all", "everyone", "team", "folks", "yall", "y" ++ ap ++ "all",
        "y" ++ rq ++ "all"] t false) 20,
     .rx (fun t => anyWord convOpeners t) 35,
     .rx (fun t => anyWord reconnectPhrases t) 65,
     .rx (fun t => startsWithWord ["dear", "to whom it may concern"] t) 20,
     .rx (fun t => anyChar greetEmoji t) 18,
     .fn (fun t => if fuzzyTokenHit t fuzzyGreetVocab 1 2 then 18 else 0)]
  | .farewell =>
    [.rx rxFarewell 50,
     .rx (fun t => anyWord ["good night", "good evening"] t) 22,
     .rx (fun t => anyWord ["see you", "see ya"] t) 25,
     .rx (fun t => anyWord
       ["take care", "take it easy", "stay safe", "be well", "be safe"] t) 22,
     .rx (fun t => anyWord haveAPhrases t) 25,
     .rx (fun t => anyWord leavingPhrases t) 45,
     .rx (fun t =>
       anyWord ["gtg", "g2g", "ttyl", "brb", "bbl", "cya", "c ya"] t) 20,
     .rx (fun t => anyWord untilPhrases t) 23,
     .rx (fun t =>
       anyWord ["good luck", "best wishes", "all the best"] t) 20]
  | .thanks =>
    [.rx rxThanks 20,
     .rx (fun t => anyWord ["appreciate it", "appreciate that"] t) 20]
  | .affirmative =>
    [.rx (fun t => anyWord affCoreWords t) 45,
     .rx (fun t => anyWord
       ["why not", "sounds good", "of course", "for sure", "you bet",
        "go ahead"] t) 65,
     .rx (fun t => anyWord
       ["i agree", "i concur", "i think agree", "i think concur", "agreed"]
       t) 40,
     .rx (fun t => anyWord ["k", "kk", "ya", "uh huh", "mhm", "mm hmm"] t) 43,
     .rx (fun t => anyWord agreeContPhrases t) 41,
     .rx (fun t => anyWord ["roger", "copy that", "got it", "understood"] t) 40,
     .rx (fun t => anyWord soundsGoodPhrases t) 40,
     .rx (fun t => anyWord ["approved", "confirmed", "accepted"] t) 40,
     .rx (fun t => standaloneWord
       ["yes", "yeah", "ok", "okay", "sure", "yep", "definitely",
        "absolutely", "k", "ya"] t) 48,
     .rx (fun t => anyWord
       ["thumbs up", String.mk [Char.ofNat 128077], String.mk [Char.ofNat 10003],
        String.mk [Char.ofNat 10004]] t) 40]
  | .negative =>
    [.rx (fun t => anyWord
       ["no", "nope", "nah", "nay", "never", "refuse", "reject", "deny",
        "decline", "false", "incorrect", "wrong", "negative"] t) 60,
     .rx (fun t => anyWord cantWontVariants t) 65,
     .rx (fun t => anyWord (dontVariants.map fun d => d ++ " think so") t) 65,
     .rx (fun t => anyWord
       ["disagree", "not really", "absolutely not", "definitely not",
        "no way"] t) 60,
     .rx (fun t => anyWord
       ["maybe later", "no thanks", "not interested", "not now", "pass",
        "sorry", "skip"] t) 62,
     .rx (fun t => anyWord dismissalPhrases t) 58,
     .rx (fun t => anyWord unsurePhrases t) 40,
     .rx (fun t => standaloneWord
       (["no", "nope", "nah", "not"] ++
        dontVariants.map fun d => d ++ " think so") t) 65,
     .rx (fun t => anyWord ["not"] t) 30,
     .rx (fun t => anyWord
       ["thumbs down", String.mk [Char.ofNat 128078],
        String.mk [Char.ofNat 10007], String.mk [Char.ofNat 10005]] t) 55]
  | .command =>
    [.rx (fun t => startsWithWord commandVerbs t) 25,
     .rx (fun t => anyWord ["please", "kindly"] t) 12,
     .rx (fun t => anyWord ["lets", "let" ++ ap ++ "s"] t) 13,
     .rx (fun t => anyWord
       ["i need you to", "i want you to", "make sure to", "be sure to"] t) 18]
  | .question =>
    [.fn (fun t => if endsQ t then 23 else 0),
     .rx (fun t => startsWithWord questionStarters t) 24,
     .rx (fun t => anyWord
       ["any idea", "could you tell me", "do you know", "i wonder",
        "is it possible"] t) 16]
  | .smalltalk =>
    [.rx (fun t => anyWord
       ["nice to meet you", "nice to see you", "pleased to meet you"] t) 22,
     .rx (fun t => anyWord ["how do you do"] t) 20]
  | .ambiguous =>
    [.rx rxAmbiguous 25]
  | .statement => []
  | .invalid => []

/-- Raw pattern score of one intent: the sum of all pattern contributions
(step 3 of the scorer). -/
def rawScore (t : List Char) (i : Intent) : Int :=
  (PATTERNS i).foldl (fun acc p => acc + patContrib t p) 0

/- ============== Ambiguity resolution (`resolveAmbiguous`) ============== -/

/-- Interrogative starters of the smart `?`-normalisation of the scorer. -/
def interrogativeStarters : List String :=
  ["who", "what", "when", "where", "why", "how", "which"]

/-- Resolution of an ambiguous phrase to `greeting` or `farewell`
(`resolveAmbiguous` of the source).  The text `t` is the scorer text, already
normalised (lower-case, single-spaced, trimmed), so the source trim and
lower-casing are identities, and `\s+` in the constructed regexes is a single
space. -/
def resolveAmbiguous (phrase : String) (t : List Char) (isFirstMessage : Bool) :
    Intent :=
  if anyWord (GROUP_ADDRESS_WORDS.map fun g => phrase ++ " " ++ g) t then
    greeting
  else if anyLitPreB
      ((["", ","].flatMap fun c => ["", "and "].map fun a =>
          phrase ++ c ++ " " ++ a).flatMap fun pre =>
        FAREWELL_INDICATORS.map fun ind => pre ++ ind) t false then
    farewell
  else
    let pl := phrase.toList
    let startsExact := t == pl
    let startsMore := phraseHere pl t false
    if startsExact then (if isFirstMessage then greeting else farewell)
    else if startsMore then greeting
    else if endsWithWordB pl t then farewell
    else farewell

/- ===================== Scorer (`score`) ===================== -/

/-- Smart `?`-normalisation (step 2 of the scorer): append `?` when the text
starts with an interrogative, does not look like a greeting, and does not
already end in `?`. -/
def scoringText (t0 : List Char) : List Char :=
  if !rxGreeting t0 && startsWithWord interrogativeStarters t0 && !endsQ t0
  then t0 ++ [Char.ofNat 63] else t0

/-- Heuristic 1: a soft imperative phrased as a question nudges `question` up
(`+0.4`). -/
def adjSoftQ (t : List Char) (s : Scores) : Scores :=
  if endsQ t ∧ 0 < s command then updS s question (s question + 4) else s

/-- Heuristic 2: `stop`/`cancel` nudges `command` up (`+0.5`). -/
def adjStopCmd (t : List Char) (s : Scores) : Scores :=
  if anyWord ["stop", "cancel"] t then updS s command (s command + 5) else s

/-- Heuristic 3: a bare year seeds `time_change` (`+1.2`) when its patterns
scored zero. -/
def adjYearSeed (t : List Char) (s : Scores) : Scores :=
  if s time_change = 0 ∧ hasYear t false
  then updS s time_change (s time_change + 12) else s

/-- Heuristic 4: a bare country/ISO-2 mention seeds `filter_change` (`+1.0`)
when its patterns scored zero. -/
def adjCountrySeed (t : List Char) (s : Scores) : Scores :=
  if s filter_change = 0 ∧ (rxCountry t ∨ rxIso2 t)
  then updS s filter_change (s filter_change + 10) else s

/-- Heuristic 5: small talk suppresses a generic question (`-0.8`). -/
def adjSmalltalkQ (s : Scores) : Scores :=
  if 0 < s smalltalk ∧ 0 < s question
  then updS s question (s question - 8) else s

/-- Heuristic 6: a greeting suppresses a generic question (`-2.5`). -/
def adjGreetQ (s : Scores) : Scores :=
  if 0 < s greeting ∧ 0 < s question
  then updS s question (s question - 25) else s

/-- Heuristic 7: a farewell suppresses a greeting (`-3.0`). -/
def adjFarewellGreet (s : Scores) : Scores :=
  if 0 < s farewell ∧ 0 < s greeting
  then updS s greeting (s greeting - 30) else s

/-- Heuristic 8: a farewell suppresses a question (`-2.5`). -/
def adjFarewellQ (s : Scores) : Scores :=
  if 0 < s farewell ∧ 0 < s question
  then updS s question (s question - 25) else s

/-- Raw pattern scores followed by the fixed cross-intent heuristic
adjustments, in source order (step 4 of the scorer). -/
def heurScores (t : List Char) : Scores :=
  adjFarewellQ (adjFarewellGreet (adjGreetQ (adjSmalltalkQ
    (adjCountrySeed t (adjYearSeed t (adjStopCmd t
      (adjSoftQ t (fun i => rawScore t i))))))))

/-- Ambiguous-intent resolution (step 5 of the scorer): reassign the
`ambiguous` score to `greeting` or `farewell` for the first matching
ambiguous phrase, then zero it. -/
def ambiguousStep (s : Scores) (t : List Char) (isFirstMessage : Bool) :
    Scores :=
  if 0 < s ambiguous then
    match AMBIGUOUS_BASE.find? (fun p => anyWord [p] t) with
    | some p =>
      let s1 :=
        if resolveAmbiguous p t isFirstMessage = greeting then
          updS s greeting (s greeting + s ambiguous)
        else
          updS s farewell (s farewell + s ambiguous)
      updS s1 ambiguous 0
    | none => s
  else s

/-- Scores of a nonempty normalised text before the statement seed. -/
def preSeedScores (t0 : List Char) (isFirstMessage : Bool) : Scores :=
  ambiguousStep (heurScores (scoringText t0)) (scoringText t0) isFirstMessage

/-- Scorer for a nonempty normalised text: pre-seed scores, then the
statement seed when every entry is zero (step 6). -/
def scoreNonempty (t0 : List Char) (isFirstMessage : Bool) : Scores :=
  let s := preSeedScores t0 isFirstMessage
  if INTENTS.all (fun i => decide (s i = 0)) then updS s statement 6 else s

/-- The exported scorer `score(text, isFirstMessage)`: empty or
whitespace-only input short-circuits to `invalid = 1`. -/
def score (text : String) (isFirstMessage : Bool) : Scores :=
  let t0 := (normalize text).toList
  if t0 = [] then updS zeroS invalid 10 else scoreNonempty t0 isFirstMessage

/- ===================== Resolver (`resolveIntents`) ===================== -/

/-- Result record `Resolution` of the source. -/
structure Resolution where
  primary : Intent
  coIntents : List Intent
  modifiers : List Intent
  scores : Scores

/-- Modifier intents (`MODIFIERS`). -/
def isModifier (i : Intent) : Bool := i == time_change || i == filter_change

/-- Non-prevailing social intents (`NON_PREVAILING_SOCIAL`). -/
def isSocialNP (i : Intent) : Bool :=
  i == greeting || i == thanks || i == farewell || i == smalltalk

/-- Near-tie tuning knob `NEAR_TIE_DELTA = 0.5`, in tenths. -/
def NEAR_TIE_DELTA : Int := 5

/-- Numerator of the co-intent tuning knob `COINTENT_FRACTION = 0.6`:
the source comparison `v >= topScore * 0.6` is embedded with cleared
denominators as `10 * v >= 6 * topScore`. -/
def COINTENT_NUM : Int := 6

/-- Precedence list `PRECEDENCE` (most important first), exactly in source
order. -/
def PRECEDENCE : List Intent :=
  [troubleshooting, download_request, viz_request, compare_request,
   metadata_request, data_query, command, greeting, question, help, thanks,
   farewell, smalltalk, statement, invalid]

/-- Index into `PRECEDENCE` (`Array.prototype.indexOf`: `-1` when absent, as
for `affirmative`, `negative`, the modifiers and `ambiguous`). -/
def precIdx (i : Intent) : Int :=
  go PRECEDENCE 0
where
  go : List Intent → Int → Int
    | [], _ => -1
    | j :: rest, n => if j = i then n else go rest (n + 1)

/-- Stable insertion for the descending sort of the active list. -/
def insertDesc (p : Intent × Int) : List (Intent × Int) → List (Intent × Int)
  | [] => [p]
  | q :: qs => if q.2 ≤ p.2 then p :: q :: qs else q :: insertDesc p qs

/-- Stable descending sort by score (`active.sort((a, b) => b[1] - a[1])`;
JavaScript sort is stable, and for a stable comparator the result is unique,
so insertion sort reproduces it). -/
def sortDesc : List (Intent × Int) → List (Intent × Int)
  | [] => []
  | x :: xs => insertDesc x (sortDesc xs)

/-- Stable insertion for the ascending precedence sort. -/
def insertPrec (i : Intent) : List Intent → List Intent
  | [] => [i]
  | j :: js => if precIdx i ≤ precIdx j then i :: j :: js else j :: insertPrec i js

/-- Stable ascending sort by precedence index
(`prevailing.sort((a, b) => PRECEDENCE.indexOf(a) - PRECEDENCE.indexOf(b))`).
-/
def sortPrec : List Intent → List Intent
  | [] => []
  | x :: xs => insertPrec x (sortPrec xs)

/-- Active intents with their scores: positive entries in `INTENTS` order
(`Object.entries` insertion order), stably sorted descending by score. -/
def activeOf (s : Scores) : List (Intent × Int) :=
  sortDesc ((INTENTS.filter fun i => decide (0 < s i)).map fun i => (i, s i))

/-- Resolver rule 4: with an actionable candidate near the top, drop the
non-prevailing social intents from the pool. -/
def poolSocial (hasActionable : Bool) (p0 : List Intent) : List Intent :=
  if hasActionable then p0.filter (fun i => !isSocialNP i) else p0

/-- Resolver rule 5: troubleshooting moves to the front when present. -/
def poolTrouble (p : List Intent) : List Intent :=
  if p.contains troubleshooting then
    troubleshooting :: p.filter (fun i => i != troubleshooting)
  else p

/-- Resolver rule 6a: an active `compare_request` is forced into the pool
when `data_query` is also active. -/
def poolCompare (activeHas : Intent → Bool) (p : List Intent) : List Intent :=
  if activeHas compare_request && activeHas data_query &&
      !p.contains compare_request then compare_request :: p else p

/-- Resolver rule 6b: an active `metadata_request` is forced into the pool
when `data_query` is also active. -/
def poolMetadata (activeHas : Intent → Bool) (p : List Intent) : List Intent :=
  if activeHas metadata_request && activeHas data_query &&
      !p.contains metadata_request then metadata_request :: p else p

/-- Resolver rule 7: with only social signals, an active farewell joins the
pool when a greeting is also active. -/
def poolFarewell (activeHas : Intent → Bool) (hasActionable : Bool)
    (p : List Intent) : List Intent :=
  if !hasActionable && !activeHas command && !activeHas question &&
      activeHas greeting && activeHas farewell && !p.contains farewell then
    farewell :: p
  else p

/-- Resolver rule 8: with nothing actionable and no command, an active
smalltalk joins the pool in place of a generic question. -/
def poolSmalltalk (activeHas : Intent → Bool) (p : List Intent) : List Intent :=
  if !([viz_request, data_query, download_request, compare_request,
        metadata_request, troubleshooting].any activeHas) &&
      !activeHas command && activeHas smalltalk && !p.contains smalltalk then
    smalltalk :: p.filter (fun i => i != question)
  else p

/-- Candidate pool after all resolver force rules, given the near-top pool
(with modifiers removed) and the activity predicate. -/
def finalPool (activeHas : Intent → Bool) (pool0 : List Intent)
    (hasActionable : Bool) : List Intent :=
  poolSmalltalk activeHas (poolFarewell activeHas hasActionable
    (poolMetadata activeHas (poolCompare activeHas
      (poolTrouble (poolSocial hasActionable pool0)))))

/-- Near-top intents: active entries within `NEAR_TIE_DELTA` of the top
score (resolver step 2). -/
def nearTopOf (active : List (Intent × Int)) (topScore : Int) : List Intent :=
  (active.filter fun p => decide (topScore - p.2 ≤ NEAR_TIE_DELTA)).map
    Prod.fst

/-- Active modifier intents, pulled out of the pool (resolver step 3). -/
def modifierHitsOf (active : List (Intent × Int)) : List Intent :=
  (active.filter fun p => isModifier p.1).map Prod.fst

/-- Near-top pool with the modifiers removed. -/
def pool0Of (active : List (Intent × Int)) (topScore : Int) : List Intent :=
  (nearTopOf active topScore).filter fun i => !isModifier i

/-- Whether some pool candidate is actionable: not social, not the
`statement`/`invalid` fallbacks (resolver step 4 test). -/
def hasActionableOf (pool0 : List Intent) : Bool :=
  pool0.any fun i => !isSocialNP i && i != statement && i != invalid

/-- Fallback primary when the pool filtered down to nothing (resolver step
10): the best-scoring actionable, else `statement` when modifiers exist,
else the original top intent. -/
def fallbackPrimary (active : List (Intent × Int))
    (modifierHits : List Intent) (topIntent : Intent) : Intent :=
  match active.filter (fun p => !isModifier p.1 && p.1 != statement &&
      p.1 != invalid && !isSocialNP p.1) with
  | (i, _) :: _ => i
  | [] => if modifierHits.isEmpty then topIntent else statement

/-- Co-intents: active non-modifier intents other than the primary scoring
at least the co-intent fraction of the top score (resolver step 11). -/
def coIntentsOf (active : List (Intent × Int)) (topScore : Int)
    (primary : Intent) : List Intent :=
  (active.filter fun p => p.1 != primary && !isModifier p.1 &&
    decide (COINTENT_NUM * topScore ≤ 10 * p.2)).map Prod.fst

/-- Resolver body once a nonempty sorted active list is in hand. -/
def resolveWithTop (s : Scores) (active : List (Intent × Int))
    (topIntent : Intent) (topScore : Int) : Resolution :=
  let pool0 := pool0Of active topScore
  let pool := finalPool (fun i => decide (0 < s i)) pool0
    (hasActionableOf pool0)
  let primary := match sortPrec pool with
    | p :: _ => p
    | [] => fallbackPrimary active (modifierHitsOf active) topIntent
  ⟨primary, coIntentsOf active topScore primary, modifierHitsOf active, s⟩

/-- The resolver, as a function of a score vector (the body of
`resolveIntents` after the call to `score`). -/
def resolveCore (s : Scores) : Resolution :=
  match activeOf s with
  | [] => ⟨invalid, [], [], s⟩
  | (topIntent, topScore) :: restActive =>
    resolveWithTop s ((topIntent, topScore) :: restActive) topIntent topScore

/-- The exported resolver `resolveIntents(text, isFirstMessage)`. -/
def resolveIntents (text : String) (isFirstMessage : Bool) : Resolution :=
  resolveCore (score text isFirstMessage)

/-- The exported single-label API `detectIntent`. -/
def detectIntent (text : String) (isFirstMessage : Bool) : Intent :=
  (resolveIntents text isFirstMessage).primary

/- ============== Preprocessor (`preprocess.ts`, `src/unnamed/part_005`) ====== -/

/-- Interrogative words protected from spell correction (`INTERROGATIVES`). -/
def INTERROGATIVES : List String :=
  ["who", "what", "when", "where", "why", "how", "which"]

/-- Protected social tokens (`SOCIAL_TOKENS`), exactly as in the source file —
without the farewell words (`see`, `till`, `well`, `one`, `out`, `off`,
`got`, `im`) that `SPELL_CORRECTION_FIX.md` documents as added. -/
def SOCIAL_TOKENS : List String :=
  ["hi", "hello", "hey", "bye", "goodbye", "thanks", "thank", "cheers", "yo",
   "hiya", "gm", "gn",
   "sup", "wassup", "wazzup", "waddup", "whassup",
   "howdy", "heya", "heyo", "hallo",
   "morning", "afternoon", "evening", "day", "night",
   "new"]

/-- Stopword list (`EN_STOPWORDS`), in source order (the order is the
iteration order of the dictionary scan, which breaks ties in
`suggestWord`). -/
def EN_STOPWORDS : List String :=
  ["a", "an", "the", "and", "or", "but", "if", "then", "else", "when",
   "where", "how", "why", "who", "which", "what",
   "i", "you", "he", "she", "it", "we", "they", "me", "him", "her", "them",
   "my", "your", "his", "her", "its", "our", "their",
   "to", "for", "from", "in", "on", "at", "by", "of", "with", "as", "is",
   "are", "was", "were", "be", "been", "being",
   "do", "does", "did", "can", "could", "should", "would", "may", "might",
   "will", "shall",
   "this", "that", "these", "those", "there", "here", "now", "then", "not",
   "no", "yes", "ok", "okay", "please"]

/-- Base English vocabulary (`EN_BASE_SMALL`), in source order. -/
def EN_BASE_SMALL : List String :=
  ["hello", "hi", "hey", "bye", "thanks", "thank", "help", "download",
   "export", "show", "plot", "chart", "map", "table",
   "compare", "definition", "source", "frequency", "latest", "trend",
   "value", "values", "increase", "decrease", "error", "crash",
   "reset", "filter", "select", "update", "open", "close", "share",
   "explain", "define", "calculate", "generate", "summarize", "rank",
   "who", "what", "when", "where", "why", "how", "which"]

/-- Default domain vocabulary (`DEFAULT_DOMAIN_VOCAB`), in source order. -/
def DEFAULT_DOMAIN_VOCAB : List String :=
  ["energy", "electricity", "power", "gas", "natural", "lng", "lpg",
   "hydrogen", "biomass", "biofuel", "renewables", "renewable",
   "wind", "solar", "hydro", "oil", "petroleum", "coal", "lignite",
   "nuclear", "heat", "district", "heating",
   "consumption", "production", "generation", "demand", "supply",
   "emission", "emissions", "intensity", "efficiency", "capacity", "storage",
   "price", "prices", "tariff", "tariffs", "investment", "import", "imports",
   "export", "exports",
   "top", "bottom", "highest", "lowest", "ranking", "rank",
   "kwh", "mwh", "gwh", "twh", "toe", "ktoe",
   "monthly", "quarterly", "annual", "annually",
   "france", "spain", "germany", "italy", "portugal", "belgium",
   "netherlands", "luxembourg", "ireland", "denmark", "sweden", "finland",
   "poland", "czechia", "slovakia", "slovenia", "hungary", "austria",
   "romania", "bulgaria", "greece", "croatia", "estonia", "latvia",
   "lithuania", "malta", "cyprus",
   "europe", "eurostat", "eu", "eu27", "euro", "eurozone", "euro area"]

/-- Profanity list (`PROFANITY`). -/
def PROFANITY : List String := ["damn", "crap", "shit", "fuck"]

/-- First-occurrence deduplication, mirroring insertion into a JavaScript
`Set` (iteration order is first-insertion order). -/
def dedupe : List String → List String
  | [] => []
  | w :: ws => w :: (dedupe ws).filter (fun v => v != w)

/-- The combined spell dictionary (`buildDictionary` with the default
options: stopwords, base vocabulary, empty whitelist, default domain
vocabulary), as a list in `Set` iteration order. -/
def buildDictionary : List String :=
  dedupe (EN_STOPWORDS ++ EN_BASE_SMALL ++ DEFAULT_DOMAIN_VOCAB)

/-- Nearest-dictionary-word suggestion (`suggestWord`): skip short, numeric
and known tokens, then scan the dictionary keeping the closest word within
`maxEditDistance`, breaking distance ties by shorter candidate (first seen
wins otherwise).  The source `break` at distance zero is unreachable: a
zero-distance word equals the token, which the `dict.has(token)` guard has
already excluded. -/
def suggestWord (tok : List Char) (dict : List String) (maxED : Nat) :
    Option String :=
  if tok.length ≤ 2 then none
  else if tok ≠ [] ∧ tok.all isDigitC then none
  else if dict.contains (String.mk tok) then none
  else
    (dict.foldl (fun best w =>
      let d := damerau tok w.toList
      if d ≤ maxED then
        match best with
        | none => some (w, d)
        | some (bw, bd) =>
          if d < bd || (d == bd && w.length < bw.length) then some (w, d)
          else best
      else best) none).map Prod.fst

/-- Token-level elongation collapse (`collapseElongationsToken`): runs of
three or more identical lower-case letters shrink to two
(`token.replace(/([a-z])\1{2,}/g, '$1$1')`); the `changed` flag of the
source only feeds the diagnostic corrections list. -/
def collapseElongAux : List Char → Option Char → Nat → List Char
  | [], _, _ => []
  | c :: rest, prev, cnt =>
    if isLowerAZ c && some c == prev then
      if 2 ≤ cnt then collapseElongAux rest prev cnt
      else c :: collapseElongAux rest prev (cnt + 1)
    else c :: collapseElongAux rest (some c) 1

def collapseElongationsToken (tok : List Char) : List Char :=
  collapseElongAux tok none 1

/-- Control characters `[\x00-\x1F\x7F]` removed by `removeControls`. -/
def isControlC (c : Char) : Bool :=
  c ≤ Char.ofNat 31 || c == Char.ofNat 127

/-- Length of an HTML tag match `<\/?[^>]+>` at the head (after the `<`):
characters up to and including the first `>`, requiring at least one
character between (the optional `/` counts as content when nothing else
precedes the `>`). -/
def tagLen : List Char → Nat → Bool → Option Nat
  | [], _, _ => none
  | c :: r, n, seen =>
    if c == Char.ofNat 62 then (if seen then some (n + 1) else none)
    else tagLen r (n + 1) true

/-- HTML tag removal (`stripHtml`); the structural fuel never runs out
since every step consumes at least one character. -/
def stripHtmlF : Nat → List Char → List Char
  | 0, l => l
  | _ + 1, [] => []
  | fuel + 1, c :: rest =>
    if c == Char.ofNat 60 then
      match tagLen rest 0 false with
      | some n => stripHtmlF fuel (rest.drop n)
      | none => c :: stripHtmlF fuel rest
    else c :: stripHtmlF fuel rest

/-- HTML tag removal at full fuel. -/
def stripHtmlL (l : List Char) : List Char := stripHtmlF l.length l

/-- Length of a URL match `https?:\/\/[^\s)]+` at the head of `t` (always
at least 8 characters when it succeeds). -/
def urlLen (t : List Char) : Option Nat :=
  match eatChars "http".toList t with
  | none => none
  | some r1 =>
    let p : Nat × List Char := match r1 with
      | c :: rr => if c == 's' then (1, rr) else (0, c :: rr)
      | [] => (0, [])
    match eatChars "://".toList p.2 with
    | none => none
    | some r2 =>
      let run := r2.takeWhile fun c => !isWsChar c && c != Char.ofNat 41
      if run.length == 0 then none
      else some (4 + p.1 + 3 + run.length)

/-- URL replacement (`replaceUrlsAndEmails`, URL half, with
`keepPlaceholders` true): every `\bhttps?:\/\/[^\s)]+` becomes `[url]`
(the `n == 0` guard is unreachable — a successful match consumes at least 8
characters — and only discharges termination). -/
def urlReplaceF : Nat → List Char → Bool → List Char
  | 0, l, _ => l
  | _ + 1, [], _ => []
  | fuel + 1, c :: rest, prevW =>
    if !prevW then
      match urlLen (c :: rest) with
      | some n =>
        if n == 0 then c :: urlReplaceF fuel rest (isWordChar c)
        else "[url]".toList ++ urlReplaceF fuel ((c :: rest).drop n) false
      | none => c :: urlReplaceF fuel rest (isWordChar c)
    else c :: urlReplaceF fuel rest (isWordChar c)

/-- URL replacement at full fuel (every step consumes at least one
character, so the fuel never runs out). -/
def urlReplace (l : List Char) (prevW : Bool) : List Char :=
  urlReplaceF l.length l prevW

/-- Character class of the e-mail local part (`[A-Z0-9._%+-]`, case
insensitive). -/
def isEmailLocalC (c : Char) : Bool :=
  isAlnumTok c || c == Char.ofNat 46 || c == Char.ofNat 95 ||
  c == Char.ofNat 37 || c == Char.ofNat 43 || c == Char.ofNat 45

/-- Character class of the e-mail domain part (`[A-Z0-9.-]`, case
insensitive). -/
def isEmailDomainC (c : Char) : Bool :=
  isAlnumTok c || c == Char.ofNat 46 || c == Char.ofNat 45

/-- ASCII letter test (`[A-Z]` with the `i` flag). -/
def isAsciiLetter (c : Char) : Bool :=
  isLowerAZ c || (c ≥ Char.ofNat 65 && c ≤ Char.ofNat 90)

/-- Whether a domain run ends in `.[A-Z]{2,}`: some dot at position ≥ 1 is
followed only by letters, at least two of them. -/
def tldSplit : List Char → Nat → Bool
  | [], _ => false
  | c :: r, pos =>
    (1 ≤ pos && c == Char.ofNat 46 && r.length ≥ 2 && r.all isAsciiLetter) ||
    tldSplit r (pos + 1)

/-- Length of an e-mail match `\b[A-Z0-9._%+-]+@[A-Z0-9.-]+\.[A-Z]{2,}\b` at
the head of `t`, for the matches that consume the whole greedy domain run
(backtracking shapes that stop inside the domain run are not represented;
no theorem input contains `@`, so this scanner only ever rejects below). -/
def emailLen (t : List Char) : Option Nat :=
  let localRun := t.takeWhile isEmailLocalC
  if localRun.length == 0 then none
  else
    match t.drop localRun.length with
    | c :: r =>
      if c == Char.ofNat 64 then
        let domRun := r.takeWhile isEmailDomainC
        if tldSplit domRun 0 then
          some (localRun.length + 1 + domRun.length)
        else none
      else none
    | [] => none

/-- E-mail replacement (`replaceUrlsAndEmails`, e-mail half): every e-mail
match starting at a word boundary becomes `[email]` (`n == 0` is again an
unreachable termination guard). -/
def emailReplaceF : Nat → List Char → Bool → List Char
  | 0, l, _ => l
  | _ + 1, [], _ => []
  | fuel + 1, c :: rest, prevW =>
    if prevW != isWordChar c then
      match emailLen (c :: rest) with
      | some n =>
        if n == 0 then c :: emailReplaceF fuel rest (isWordChar c)
        else "[email]".toList ++ emailReplaceF fuel ((c :: rest).drop n) false
      | none => c :: emailReplaceF fuel rest (isWordChar c)
    else c :: emailReplaceF fuel rest (isWordChar c)

/-- E-mail replacement at full fuel. -/
def emailReplace (l : List Char) (prevW : Bool) : List Char :=
  emailReplaceF l.length l prevW

/-- Profanity masking (`maskProfanity`): each profanity word, matched with
word boundaries, keeps its first letter and is padded with `*` to its
length. -/
def maskProfanityF : Nat → List Char → Bool → List Char
  | 0, l, _ => l
  | _ + 1, [], _ => []
  | fuel + 1, c :: rest, prevW =>
    match (PROFANITY.filter fun w =>
        phraseHere w.toList (c :: rest) prevW).head? with
    | some w =>
      match w.toList with
      | [] => c :: maskProfanityF fuel rest (isWordChar c)
      | wc :: wcs =>
        (c :: List.replicate wcs.length (Char.ofNat 42)) ++
          maskProfanityF fuel ((c :: rest).drop (wcs.length + 1))
            (isWordChar ((wc :: wcs).getLastD wc))
    | none => c :: maskProfanityF fuel rest (isWordChar c)

/-- Profanity masking at full fuel. -/
def maskProfanityL (l : List Char) (prevW : Bool) : List Char :=
  maskProfanityF l.length l prevW

/-- Placeholder literals re-appended to the cleaned string
(`working.match(/\[(?:url|email)\]/g)`). -/
def collectPlaceholdersF : Nat → List Char → List String
  | 0, _ => []
  | _ + 1, [] => []
  | fuel + 1, c :: rest =>
    if (eatChars "[url]".toList (c :: rest)).isSome then
      "[url]" :: collectPlaceholdersF fuel ((c :: rest).drop 5)
    else if (eatChars "[email]".toList (c :: rest)).isSome then
      "[email]" :: collectPlaceholdersF fuel ((c :: rest).drop 7)
    else collectPlaceholdersF fuel rest

/-- Placeholder collection at full fuel. -/
def collectPlaceholders (l : List Char) : List String :=
  collectPlaceholdersF l.length l

/-- Spell-correction of one token (the token map of step 5 of
`preprocessInput`, with all default options): protected tokens, stopwords,
dictionary words and short tokens pass through, otherwise the nearest
dictionary suggestion replaces the token. -/
def spellFixToken (protectedToks : List String) (dict : List String)
    (tok : List Char) : List Char :=
  let tokS := String.mk tok
  if protectedToks.contains tokS then tok
  else if EN_STOPWORDS.contains tokS then tok
  else if dict.contains tokS then tok
  else if tok.length ≤ 2 then tok
  else
    match suggestWord tok dict 1 with
    | some s => if s ≠ tokS then s.toList else tok
    | none => tok

/-- Protected-token set of step 5 with the default options: interrogatives,
social tokens, and the first token when it is an interrogative (the last
addition is subsumed by the first under the defaults but kept for
faithfulness). -/
def protectedTokens (tokens : List (List Char)) : List String :=
  INTERROGATIVES ++ SOCIAL_TOKENS ++
  (match tokens.head? with
   | some t0 => if INTERROGATIVES.contains (String.mk t0) then
       [String.mk t0] else []
   | none => [])

/-- The cleaned-string pipeline of `preprocessInput(raw)` with the default
options: normalise, cap at `maxChars = 1000`, strip controls and HTML,
replace URLs and e-mails by placeholders, mask profanity, tokenise (capped at
1024 tokens), collapse elongations, spell-correct, re-join, and re-append
placeholders. -/
def preprocessCleaned (raw : String) : String :=
  let normalized := (normalizeP raw).toList
  let working := normalized.take 1000
  let working := working.filter fun c => !isControlC c
  let working := stripHtmlL working
  let working := urlReplace working false
  let working := emailReplace working false
  let working := maskProfanityL working false
  let tokens := (alnumRuns working).take 1024
  let tokens := tokens.map collapseElongationsToken
  let dict := buildDictionary
  let prot := protectedTokens tokens
  let tokens := tokens.map (spellFixToken prot dict)
  let placeholders := collectPlaceholders working
  let cleaned := String.intercalate " " (tokens.map String.mk)
  if placeholders.isEmpty then cleaned
  else String.mk (trimWs
    (cleaned ++ " " ++ String.intercalate " " placeholders).toList)

/- ===================== Lemmas: score vectors ===================== -/

theorem updS_same (s : Scores) (i : Intent) (v : Int) : updS s i v i = v := by
  simp [updS]

theorem updS_ne (s : Scores) (i : Intent) (v : Int) (j : Intent) (h : j ≠ i) :
    updS s i v j = s j := by
  simp [updS, h]

/-- Weight of a pattern (`0` for functional patterns, whose contribution is
clamped to be non-negative by the scorer itself). -/
def patWeight : Pat → Int
  | .rx _ w => w
  | .fn _ => 0

theorem patContrib_nonneg (t : List Char) (p : Pat) (hw : 0 ≤ patWeight p) :
    0 ≤ patContrib t p := by
  cases p with
  | rx m w =>
    simp only [patContrib]
    split
    · simpa [patWeight] using hw
    · omega
  | fn f =>
    simp only [patContrib]
    split <;> omega

theorem PATTERNS_weights_nonneg :
    ∀ i : Intent, ∀ p ∈ PATTERNS i, 0 ≤ patWeight p := by
  decide

theorem foldl_contrib_nonneg (t : List Char) :
    ∀ (l : List Pat) (acc : Int), 0 ≤ acc →
      (∀ p ∈ l, 0 ≤ patWeight p) →
      0 ≤ l.foldl (fun a p => a + patContrib t p) acc := by
  intro l
  induction l with
  | nil => intro acc h _; simpa using h
  | cons p ps ih =>
    intro acc hacc hl
    simp only [List.foldl_cons]
    exact ih _ (by
      have := patContrib_nonneg t p (hl p (List.mem_cons_self _ _))
      omega) (fun q hq => hl q (List.mem_cons_of_mem _ hq))

theorem rawScore_nonneg (t : List Char) (i : Intent) : 0 ≤ rawScore t i :=
  foldl_contrib_nonneg t (PATTERNS i) 0 le_rfl (PATTERNS_weights_nonneg i)

theorem rawScore_invalid (t : List Char) : rawScore t invalid = 0 := rfl

theorem rawScore_statement (t : List Char) : rawScore t statement = 0 := rfl

/- ===================== Lemmas: heuristic adjustments ===================== -/

theorem adjSoftQ_ne (t : List Char) (s : Scores) (i : Intent)
    (h : i ≠ question) : adjSoftQ t s i = s i := by
  unfold adjSoftQ; split
  · exact updS_ne _ _ _ _ h
  · rfl

theorem adjStopCmd_ne (t : List Char) (s : Scores) (i : Intent)
    (h : i ≠ command) : adjStopCmd t s i = s i := by
  unfold adjStopCmd; split
  · exact updS_ne _ _ _ _ h
  · rfl

theorem adjYearSeed_ne (t : List Char) (s : Scores) (i : Intent)
    (h : i ≠ time_change) : adjYearSeed t s i = s i := by
  unfold adjYearSeed; split
  · exact updS_ne _ _ _ _ h
  · rfl

theorem adjCountrySeed_ne (t : List Char) (s : Scores) (i : Intent)
    (h : i ≠ filter_change) : adjCountrySeed t s i = s i := by
  unfold adjCountrySeed; split
  · exact updS_ne _ _ _ _ h
  · rfl

theorem adjSmalltalkQ_ne (s : Scores) (i : Intent)
    (h : i ≠ question) : adjSmalltalkQ s i = s i := by
  unfold adjSmalltalkQ; split
  · exact updS_ne _ _ _ _ h
  · rfl

theorem adjGreetQ_ne (s : Scores) (i : Intent)
    (h : i ≠ question) : adjGreetQ s i = s i := by
  unfold adjGreetQ; split
  · exact updS_ne _ _ _ _ h
  · rfl

theorem adjFarewellGreet_ne (s : Scores) (i : Intent)
    (h : i ≠ greeting) : adjFarewellGreet s i = s i := by
  unfold adjFarewellGreet; split
  · exact updS_ne _ _ _ _ h
  · rfl

theorem adjFarewellQ_ne (s : Scores) (i : Intent)
    (h : i ≠ question) : adjFarewellQ s i = s i := by
  unfold adjFarewellQ; split
  · exact updS_ne _ _ _ _ h
  · rfl

theorem adjSoftQ_ge (t : List Char) (s : Scores) (i : Intent) :
    s i ≤ adjSoftQ t s i := by
  unfold adjSoftQ; split
  · simp only [updS]
    split
    · rename_i h; rw [h]; omega
    · omega
  · omega

theorem adjStopCmd_ge (t : List Char) (s : Scores) (i : Intent) :
    s i ≤ adjStopCmd t s i := by
  unfold adjStopCmd; split
  · simp only [updS]
    split
    · rename_i h; rw [h]; omega
    · omega
  · omega

theorem adjYearSeed_ge (t : List Char) (s : Scores) (i : Intent) :
    s i ≤ adjYearSeed t s i := by
  unfold adjYearSeed; split
  · simp only [updS]
    split
    · rename_i h; rw [h]; omega
    · omega
  · omega

theorem adjCountrySeed_ge (t : List Char) (s : Scores) (i : Intent) :
    s i ≤ adjCountrySeed t s i := by
  unfold adjCountrySeed; split
  · simp only [updS]
    split
    · rename_i h; rw [h]; omega
    · omega
  · omega

/-- Value of the four additive heuristics stacked on the raw scores. -/
def addersScores (t : List Char) : Scores :=
  adjCountrySeed t (adjYearSeed t (adjStopCmd t
    (adjSoftQ t (fun i => rawScore t i))))

theorem heurScores_eq (t : List Char) :
    heurScores t =
      adjFarewellQ (adjFarewellGreet (adjGreetQ (adjSmalltalkQ
        (addersScores t)))) := rfl

theorem addersScores_ge_raw (t : List Char) (i : Intent) :
    rawScore t i ≤ addersScores t i := by
  unfold addersScores
  calc rawScore t i
      ≤ adjSoftQ t (fun i => rawScore t i) i := adjSoftQ_ge ..
    _ ≤ adjStopCmd t (adjSoftQ t (fun i => rawScore t i)) i := adjStopCmd_ge ..
    _ ≤ adjYearSeed t (adjStopCmd t (adjSoftQ t (fun i => rawScore t i))) i :=
        adjYearSeed_ge ..
    _ ≤ _ := adjCountrySeed_ge ..

theorem addersScores_nonneg (t : List Char) (i : Intent) :
    0 ≤ addersScores t i :=
  le_trans (rawScore_nonneg t i) (addersScores_ge_raw t i)

theorem addersScores_untouched (t : List Char) (i : Intent)
    (h1 : i ≠ question) (h2 : i ≠ command) (h3 : i ≠ time_change)
    (h4 : i ≠ filter_change) : addersScores t i = rawScore t i := by
  unfold addersScores
  rw [adjCountrySeed_ne _ _ _ h4, adjYearSeed_ne _ _ _ h3,
    adjStopCmd_ne _ _ _ h2, adjSoftQ_ne _ _ _ h1]

theorem heurScores_untouched (t : List Char) (i : Intent)
    (h1 : i ≠ question) (h2 : i ≠ command) (h3 : i ≠ time_change)
    (h4 : i ≠ filter_change) (h5 : i ≠ greeting) :
    heurScores t i = rawScore t i := by
  rw [heurScores_eq, adjFarewellQ_ne _ _ h1, adjFarewellGreet_ne _ _ h5,
    adjGreetQ_ne _ _ h1, adjSmalltalkQ_ne _ _ h1]
  exact addersScores_untouched t i h1 h2 h3 h4

theorem heurScores_nonneg (t : List Char) (i : Intent)
    (hg : i ≠ greeting) (hq : i ≠ question) : 0 ≤ heurScores t i := by
  rw [heurScores_eq, adjFarewellQ_ne _ _ hq, adjFarewellGreet_ne _ _ hg,
    adjGreetQ_ne _ _ hq, adjSmalltalkQ_ne _ _ hq]
  exact addersScores_nonneg t i

theorem heurScores_farewell (t : List Char) :
    heurScores t farewell = rawScore t farewell :=
  heurScores_untouched t farewell (by decide) (by decide) (by decide)
    (by decide) (by decide)

theorem heurScores_smalltalk (t : List Char) :
    heurScores t smalltalk = rawScore t smalltalk :=
  heurScores_untouched t smalltalk (by decide) (by decide) (by decide)
    (by decide) (by decide)

theorem heurScores_ambiguous (t : List Char) :
    heurScores t ambiguous = rawScore t ambiguous :=
  heurScores_untouched t ambiguous (by decide) (by decide) (by decide)
    (by decide) (by decide)

theorem heurScores_invalid (t : List Char) : heurScores t invalid = 0 := by
  rw [heurScores_untouched t invalid (by decide) (by decide) (by decide)
    (by decide) (by decide)]
  rfl

theorem heurScores_statement (t : List Char) : heurScores t statement = 0 := by
  rw [heurScores_untouched t statement (by decide) (by decide) (by decide)
    (by decide) (by decide)]
  rfl

/-- With no farewell signal the greeting suppression does not fire and the
greeting score survives the heuristics untouched. -/
theorem heurScores_greeting_of_no_farewell (t : List Char)
    (h : rawScore t farewell = 0) :
    heurScores t greeting = rawScore t greeting := by
  rw [heurScores_eq, adjFarewellQ_ne _ _ (by decide)]
  have hfg : adjGreetQ (adjSmalltalkQ (addersScores t)) farewell
      = rawScore t farewell := by
    rw [adjGreetQ_ne _ _ (by decide), adjSmalltalkQ_ne _ _ (by decide)]
    exact addersScores_untouched t farewell (by decide) (by decide)
      (by decide) (by decide)
  have hg : adjGreetQ (adjSmalltalkQ (addersScores t)) greeting
      = rawScore t greeting := by
    rw [adjGreetQ_ne _ _ (by decide), adjSmalltalkQ_ne _ _ (by decide)]
    exact addersScores_untouched t greeting (by decide) (by decide)
      (by decide) (by decide)
  unfold adjFarewellGreet
  split
  · rename_i hc
    rw [hfg, h] at hc
    omega
  · exact hg

/-- With no farewell, smalltalk or greeting signal none of the question
suppressions fires, and the question score keeps its additive-adjusted
(non-negative) value. -/
theorem heurScores_question_nonneg_of_quiet (t : List Char)
    (hf : rawScore t farewell = 0) (hs : rawScore t smalltalk = 0)
    (hg : rawScore t greeting = 0) : 0 ≤ heurScores t question := by
  rw [heurScores_eq]
  have e1 : ∀ i, i ≠ question →
      adjGreetQ (adjSmalltalkQ (addersScores t)) i = addersScores t i := by
    intro i hi
    rw [adjGreetQ_ne _ _ hi, adjSmalltalkQ_ne _ _ hi]
  have efw : adjFarewellGreet (adjGreetQ (adjSmalltalkQ (addersScores t)))
      farewell = rawScore t farewell := by
    rw [adjFarewellGreet_ne _ _ (by decide), e1 _ (by decide)]
    exact addersScores_untouched t farewell (by decide) (by decide)
      (by decide) (by decide)
  have hq0 : 0 ≤ addersScores t question :=
    addersScores_nonneg t question
  have hsq : adjSmalltalkQ (addersScores t) question
      = addersScores t question := by
    unfold adjSmalltalkQ
    split
    · rename_i hc
      rw [addersScores_untouched t smalltalk (by decide) (by decide)
        (by decide) (by decide), hs] at hc
      omega
    · rfl
  have hgq : adjGreetQ (adjSmalltalkQ (addersScores t)) question
      = addersScores t question := by
    unfold adjGreetQ
    split
    · rename_i hc
      rw [adjSmalltalkQ_ne _ _ (by decide),
        addersScores_untouched t greeting (by decide) (by decide)
          (by decide) (by decide), hg] at hc
      omega
    · exact hsq
  have hfgq : adjFarewellGreet (adjGreetQ (adjSmalltalkQ (addersScores t)))
      question = addersScores t question := by
    rw [adjFarewellGreet_ne _ _ (by decide)]
    exact hgq
  unfold adjFarewellQ
  split
  · rename_i hc
    rw [adjFarewellGreet_ne _ _ (by decide), e1 _ (by decide),
      addersScores_untouched t farewell (by decide) (by decide)
        (by decide) (by decide), hf] at hc
    omega
  · rw [hfgq]; exact hq0

/- ===================== Lemmas: ambiguity step and pre-seed scores ========= -/

theorem ambiguousStep_ne (s : Scores) (t : List Char) (f : Bool) (i : Intent)
    (h1 : i ≠ greeting) (h2 : i ≠ farewell) (h3 : i ≠ ambiguous) :
    ambiguousStep s t f i = s i := by
  unfold ambiguousStep
  split
  · cases hfind : List.find? (fun p => anyWord [p] t) AMBIGUOUS_BASE with
    | none => simp [hfind]
    | some p =>
      simp only [hfind]
      split
      · rw [updS_ne _ _ _ _ h3, updS_ne _ _ _ _ h1]
      · rw [updS_ne _ _ _ _ h3, updS_ne _ _ _ _ h2]
  · rfl

theorem ambiguousStep_greeting_ge (s : Scores) (t : List Char) (f : Bool)
    (_h : 0 ≤ s ambiguous) : s greeting ≤ ambiguousStep s t f greeting := by
  unfold ambiguousStep
  split
  · cases hfind : List.find? (fun p => anyWord [p] t) AMBIGUOUS_BASE with
    | none => simp [hfind]
    | some p =>
      simp only [hfind]
      split
      · rw [updS_ne _ _ _ _ (by decide), updS_same]; omega
      · rw [updS_ne _ _ _ _ (by decide), updS_ne _ _ _ _ (by decide)]
  · omega

theorem ambiguousStep_farewell_ge (s : Scores) (t : List Char) (f : Bool)
    (_h : 0 ≤ s ambiguous) : s farewell ≤ ambiguousStep s t f farewell := by
  unfold ambiguousStep
  split
  · cases hfind : List.find? (fun p => anyWord [p] t) AMBIGUOUS_BASE with
    | none => simp [hfind]
    | some p =>
      simp only [hfind]
      split
      · rw [updS_ne _ _ _ _ (by decide), updS_ne _ _ _ _ (by decide)]
      · rw [updS_ne _ _ _ _ (by decide), updS_same]; omega
  · omega

/-- Whenever the ambiguous intent scored, some ambiguous phrase matches the
text, so the reassignment loop always finds one. -/
theorem amb_find_isSome (t : List Char) (h : 0 < rawScore t ambiguous) :
    (AMBIGUOUS_BASE.find? fun p => anyWord [p] t).isSome := by
  have hrx : rxAmbiguous t = true := by
    by_contra hc
    simp only [Bool.not_eq_true] at hc
    have : rawScore t ambiguous = 0 := by
      simp [rawScore, PATTERNS, patContrib, hc]
    omega
  rw [List.find?_isSome]
  have := (List.any_eq_true).mp hrx
  obtain ⟨p, hp, hm⟩ := this
  exact ⟨p, hp, by simpa [anyWord] using hm⟩

theorem preSeedScores_ambiguous (t0 : List Char) (f : Bool) :
    preSeedScores t0 f ambiguous = 0 := by
  unfold preSeedScores ambiguousStep
  split
  · rename_i hpos
    rw [heurScores_ambiguous] at hpos
    have := amb_find_isSome (scoringText t0) hpos
    rcases hfind : AMBIGUOUS_BASE.find? fun p => anyWord [p] (scoringText t0)
      with _ | p
    · rw [hfind] at this; simp at this
    · exact updS_same _ _ _
  · rename_i hneg
    rw [heurScores_ambiguous] at hneg ⊢
    have := rawScore_nonneg (scoringText t0) ambiguous
    omega

theorem preSeedScores_invalid (t0 : List Char) (f : Bool) :
    preSeedScores t0 f invalid = 0 := by
  unfold preSeedScores
  rw [ambiguousStep_ne _ _ _ _ (by decide) (by decide) (by decide)]
  exact heurScores_invalid _

theorem preSeedScores_statement (t0 : List Char) (f : Bool) :
    preSeedScores t0 f statement = 0 := by
  unfold preSeedScores
  rw [ambiguousStep_ne _ _ _ _ (by decide) (by decide) (by decide)]
  exact heurScores_statement _

theorem preSeedScores_nonneg (t0 : List Char) (f : Bool) (i : Intent)
    (hg : i ≠ greeting) (hq : i ≠ question) :
    0 ≤ preSeedScores t0 f i := by
  by_cases hf : i = farewell
  · subst hf
    refine le_trans ?_ (ambiguousStep_farewell_ge _ _ _ ?_)
    · rw [heurScores_farewell]; exact rawScore_nonneg ..
    · rw [heurScores_ambiguous]; exact rawScore_nonneg ..
  · by_cases ha : i = ambiguous
    · subst ha; rw [preSeedScores_ambiguous]
    · unfold preSeedScores
      rw [ambiguousStep_ne _ _ _ _ hg hf ha]
      exact heurScores_nonneg _ _ hg hq

/-- A zero pre-seed farewell score forces a zero raw farewell score. -/
theorem raw_farewell_of_preSeed_zero (t0 : List Char) (f : Bool)
    (h : preSeedScores t0 f farewell = 0) :
    rawScore (scoringText t0) farewell = 0 := by
  have hge : heurScores (scoringText t0) farewell ≤ preSeedScores t0 f
      farewell := by
    unfold preSeedScores
    exact ambiguousStep_farewell_ge _ _ _ (by
      rw [heurScores_ambiguous]; exact rawScore_nonneg ..)
  rw [heurScores_farewell] at hge
  have := rawScore_nonneg (scoringText t0) farewell
  omega

/- ===================== Lemmas: the scorer ===================== -/

theorem score_of_empty (text : String) (f : Bool)
    (h : (normalize text).toList = []) :
    score text f = updS zeroS invalid 10 := by
  unfold score
  rw [if_pos h]

theorem score_of_nonempty (text : String) (f : Bool)
    (h : (normalize text).toList ≠ []) :
    score text f = scoreNonempty (normalize text).toList f := by
  unfold score
  rw [if_neg h]

theorem scoreNonempty_nonneg (t0 : List Char) (f : Bool) (i : Intent)
    (hg : i ≠ greeting) (hq : i ≠ question) :
    0 ≤ scoreNonempty t0 f i := by
  unfold scoreNonempty
  split
  · by_cases hs : i = statement
    · subst hs; rw [updS_same]; omega
    · rw [updS_ne _ _ _ _ hs]; exact preSeedScores_nonneg t0 f i hg hq
  · exact preSeedScores_nonneg t0 f i hg hq

theorem scoreNonempty_ambiguous (t0 : List Char) (f : Bool) :
    scoreNonempty t0 f ambiguous = 0 := by
  unfold scoreNonempty
  split
  · rw [updS_ne _ _ _ _ (by decide)]; exact preSeedScores_ambiguous t0 f
  · exact preSeedScores_ambiguous t0 f

theorem scoreNonempty_invalid (t0 : List Char) (f : Bool) :
    scoreNonempty t0 f invalid = 0 := by
  unfold scoreNonempty
  split
  · rw [updS_ne _ _ _ _ (by decide)]; exact preSeedScores_invalid t0 f
  · exact preSeedScores_invalid t0 f

theorem score_ambiguous_zero (text : String) (f : Bool) :
    score text f ambiguous = 0 := by
  by_cases h : (normalize text).toList = []
  · rw [score_of_empty text f h, updS_ne _ _ _ _ (by decide)]; rfl
  · rw [score_of_nonempty text f h]; exact scoreNonempty_ambiguous _ f

theorem score_invalid_zero (text : String) (f : Bool)
    (h : (normalize text).toList ≠ []) : score text f invalid = 0 := by
  rw [score_of_nonempty text f h]
  exact scoreNonempty_invalid _ f

/-- On a nonempty normalised text some intent always ends up with a positive
score: either the statement seed fired, or one of the signals that survived
every suppression is positive. -/
theorem scoreNonempty_exists_pos (t0 : List Char) (f : Bool) :
    ∃ i, 0 < scoreNonempty t0 f i := by
  unfold scoreNonempty
  split
  · exact ⟨statement, by rw [updS_same]; omega⟩
  · rename_i hall
    have hex : ∃ j, preSeedScores t0 f j ≠ 0 := by
      by_contra hc
      push_neg at hc
      exact hall (by
        rw [List.all_eq_true]
        intro x _
        simpa using hc x)
    by_cases hgen : ∃ j, j ≠ greeting ∧ j ≠ question ∧ preSeedScores t0 f j ≠ 0
    · obtain ⟨j, hjg, hjq, hj⟩ := hgen
      exact ⟨j, lt_of_le_of_ne (preSeedScores_nonneg t0 f j hjg hjq)
        (Ne.symm hj)⟩
    · push_neg at hgen
      have hf0 : preSeedScores t0 f farewell = 0 :=
        hgen farewell (by decide) (by decide)
      have hrawf : rawScore (scoringText t0) farewell = 0 :=
        raw_farewell_of_preSeed_zero t0 f hf0
      have hsm0 : preSeedScores t0 f smalltalk = 0 :=
        hgen smalltalk (by decide) (by decide)
      have hrawsm : rawScore (scoringText t0) smalltalk = 0 := by
        have : preSeedScores t0 f smalltalk
            = rawScore (scoringText t0) smalltalk := by
          unfold preSeedScores
          rw [ambiguousStep_ne _ _ _ _ (by decide) (by decide) (by decide)]
          exact heurScores_smalltalk _
        omega
      have hpre_g : rawScore (scoringText t0) greeting
          ≤ preSeedScores t0 f greeting := by
        have h1 : heurScores (scoringText t0) greeting
            = rawScore (scoringText t0) greeting :=
          heurScores_greeting_of_no_farewell _ hrawf
        have h2 := ambiguousStep_greeting_ge (heurScores (scoringText t0))
          (scoringText t0) f (by
            rw [heurScores_ambiguous]; exact rawScore_nonneg ..)
        unfold preSeedScores
        omega
      by_cases hgpos : 0 < rawScore (scoringText t0) greeting
      · exact ⟨greeting, lt_of_lt_of_le hgpos hpre_g⟩
      · have hrawg : rawScore (scoringText t0) greeting = 0 := by
          have := rawScore_nonneg (scoringText t0) greeting
          omega
        obtain ⟨j, hj⟩ := hex
        have hjgq : j = greeting ∨ j = question := by
          by_contra hc
          push_neg at hc
          exact hj (hgen j hc.1 hc.2)
        rcases hjgq with hj1 | hj1
        · subst hj1
          exact ⟨greeting, lt_of_le_of_ne (le_trans (by omega) hpre_g)
            (Ne.symm hj)⟩
        · subst hj1
          have hpq : preSeedScores t0 f question
              = heurScores (scoringText t0) question := by
            unfold preSeedScores
            rw [ambiguousStep_ne _ _ _ _ (by decide) (by decide) (by decide)]
          have hq0 : 0 ≤ heurScores (scoringText t0) question :=
            heurScores_question_nonneg_of_quiet _ hrawf hrawsm hrawg
          exact ⟨question, lt_of_le_of_ne (by omega) (Ne.symm hj)⟩

/-- C5 core fact: every score entry other than `greeting` and `question` is
non-negative. -/
theorem score_nonneg_except (text : String) (f : Bool) (i : Intent)
    (hg : i ≠ greeting) (hq : i ≠ question) : 0 ≤ score text f i := by
  by_cases h : (normalize text).toList = []
  · rw [score_of_empty text f h]
    by_cases hi : i = invalid
    · subst hi; rw [updS_same]; omega
    · rw [updS_ne _ _ _ _ hi]; exact le_refl 0
  · rw [score_of_nonempty text f h]
    exact scoreNonempty_nonneg _ f i hg hq

/- ===================== Lemmas: resolver sorts ===================== -/

theorem mem_insertDesc (p x : Intent × Int) (l : List (Intent × Int)) :
    x ∈ insertDesc p l ↔ x = p ∨ x ∈ l := by
  induction l with
  | nil => simp [insertDesc]
  | cons q qs ih =>
    unfold insertDesc
    split
    · simp [List.mem_cons]
    · simp only [List.mem_cons, ih]
      tauto

theorem mem_sortDesc (x : Intent × Int) (l : List (Intent × Int)) :
    x ∈ sortDesc l ↔ x ∈ l := by
  induction l with
  | nil => simp [sortDesc]
  | cons q qs ih =>
    unfold sortDesc
    rw [mem_insertDesc, ih, List.mem_cons]

theorem insertDesc_ne_nil (p : Intent × Int) (l : List (Intent × Int)) :
    insertDesc p l ≠ [] := by
  cases l with
  | nil => simp [insertDesc]
  | cons q qs =>
    unfold insertDesc
    split <;> simp

theorem sortDesc_ne_nil (a : Intent × Int) (l : List (Intent × Int)) :
    sortDesc (a :: l) ≠ [] := by
  unfold sortDesc
  exact insertDesc_ne_nil _ _

/-- Sortedness invariant of the descending sort. -/
theorem insertDesc_sorted (p : Intent × Int) (l : List (Intent × Int))
    (h : l.Pairwise (fun a b => b.2 ≤ a.2)) :
    (insertDesc p l).Pairwise (fun a b => b.2 ≤ a.2) := by
  induction l with
  | nil => simp [insertDesc]
  | cons q qs ih =>
    unfold insertDesc
    rw [List.pairwise_cons] at h
    split
    · rename_i hle
      rw [List.pairwise_cons]
      constructor
      · intro b hb
        rcases List.mem_cons.mp hb with hb | hb
        · subst hb; exact hle
        · exact le_trans (h.1 b hb) hle
      · exact List.pairwise_cons.mpr h
    · rename_i hgt
      rw [List.pairwise_cons]
      constructor
      · intro b hb
        rcases (mem_insertDesc p b qs).mp hb with hb | hb
        · subst hb; omega
        · exact h.1 b hb
      · exact ih h.2

theorem sortDesc_sorted (l : List (Intent × Int)) :
    (sortDesc l).Pairwise (fun a b => b.2 ≤ a.2) := by
  induction l with
  | nil => simp [sortDesc]
  | cons q qs ih => exact insertDesc_sorted q (sortDesc qs) ih

/-- The head of the sorted active list carries the maximal score. -/
theorem sortDesc_head_max (l : List (Intent × Int)) (p : Intent × Int)
    (rest : List (Intent × Int)) (h : sortDesc l = p :: rest) :
    ∀ q ∈ l, q.2 ≤ p.2 := by
  intro q hq
  have hmem : q ∈ sortDesc l := (mem_sortDesc q l).mpr hq
  rw [h] at hmem
  rcases List.mem_cons.mp hmem with hq1 | hq1
  · subst hq1; omega
  · have := sortDesc_sorted l
    rw [h, List.pairwise_cons] at this
    exact this.1 q hq1

theorem mem_insertPrec (p x : Intent) (l : List Intent) :
    x ∈ insertPrec p l ↔ x = p ∨ x ∈ l := by
  induction l with
  | nil => simp [insertPrec]
  | cons q qs ih =>
    unfold insertPrec
    split
    · simp [List.mem_cons]
    · simp only [List.mem_cons, ih]
      tauto

theorem mem_sortPrec (x : Intent) (l : List Intent) :
    x ∈ sortPrec l ↔ x ∈ l := by
  induction l with
  | nil => simp [sortPrec]
  | cons q qs ih =>
    unfold sortPrec
    rw [mem_insertPrec, ih, List.mem_cons]

theorem insertPrec_ne_nil (p : Intent) (l : List Intent) :
    insertPrec p l ≠ [] := by
  cases l with
  | nil => simp [insertPrec]
  | cons q qs =>
    unfold insertPrec
    split <;> simp

theorem insertPrec_sorted (p : Intent) (l : List Intent)
    (h : l.Pairwise (fun a b => precIdx a ≤ precIdx b)) :
    (insertPrec p l).Pairwise (fun a b => precIdx a ≤ precIdx b) := by
  induction l with
  | nil => simp [insertPrec]
  | cons q qs ih =>
    unfold insertPrec
    rw [List.pairwise_cons] at h
    split
    · rename_i hle
      rw [List.pairwise_cons]
      constructor
      · intro b hb
        rcases List.mem_cons.mp hb with hb | hb
        · subst hb; exact hle
        · exact le_trans hle (h.1 b hb)
      · exact List.pairwise_cons.mpr h
    · rename_i hgt
      rw [List.pairwise_cons]
      constructor
      · intro b hb
        rcases (mem_insertPrec p b qs).mp hb with hb | hb
        · subst hb; omega
        · exact h.1 b hb
      · exact ih h.2

theorem sortPrec_sorted (l : List Intent) :
    (sortPrec l).Pairwise (fun a b => precIdx a ≤ precIdx b) := by
  induction l with
  | nil => simp [sortPrec]
  | cons q qs ih => exact insertPrec_sorted q (sortPrec qs) ih

/-- The head of the precedence-sorted pool has the minimal precedence
index. -/
theorem sortPrec_head_min (l : List Intent) (p : Intent) (rest : List Intent)
    (h : sortPrec l = p :: rest) : ∀ q ∈ l, precIdx p ≤ precIdx q := by
  intro q hq
  have hmem : q ∈ sortPrec l := (mem_sortPrec q l).mpr hq
  rw [h] at hmem
  rcases List.mem_cons.mp hmem with hq1 | hq1
  · subst hq1; omega
  · have := sortPrec_sorted l
    rw [h, List.pairwise_cons] at this
    exact this.1 q hq1

theorem sortPrec_head_mem (l : List Intent) (p : Intent) (rest : List Intent)
    (h : sortPrec l = p :: rest) : p ∈ l := by
  have : p ∈ sortPrec l := by rw [h]; exact List.mem_cons_self _ _
  exact (mem_sortPrec p l).mp this

theorem sortPrec_ne_nil_of_mem (l : List Intent) (x : Intent) (hx : x ∈ l) :
    sortPrec l ≠ [] := by
  intro hc
  have : x ∈ sortPrec l := (mem_sortPrec x l).mpr hx
  rw [hc] at this
  simp at this

/- ===================== Lemmas: active list and pools ===================== -/

theorem activeOf_mem (s : Scores) (x : Intent × Int) (hx : x ∈ activeOf s) :
    0 < s x.1 ∧ x.2 = s x.1 := by
  unfold activeOf at hx
  rw [mem_sortDesc] at hx
  obtain ⟨i, hi, hxi⟩ := List.mem_map.mp hx
  have := List.of_mem_filter hi
  subst hxi
  simpa using this

theorem activeOf_mem_of_pos (s : Scores) (i : Intent) (h : 0 < s i) :
    (i, s i) ∈ activeOf s := by
  unfold activeOf
  rw [mem_sortDesc]
  exact List.mem_map.mpr ⟨i, List.mem_filter.mpr
    ⟨INTENTS_complete i, by simpa using h⟩, rfl⟩

theorem activeOf_ne_nil (s : Scores) (i : Intent) (h : 0 < s i) :
    activeOf s ≠ [] := by
  intro hc
  have := activeOf_mem_of_pos s i h
  rw [hc] at this
  simp at this

/-- Members of the near-top pool are active with their own score within the
near-tie delta of the top. -/
theorem mem_nearTopOf (active : List (Intent × Int)) (topScore : Int)
    (x : Intent) (hx : x ∈ nearTopOf active topScore) :
    ∃ v, (x, v) ∈ active ∧ topScore - v ≤ NEAR_TIE_DELTA := by
  unfold nearTopOf at hx
  obtain ⟨p, hp, hxp⟩ := List.mem_map.mp hx
  have hf := List.of_mem_filter hp
  have hm := List.mem_of_mem_filter hp
  subst hxp
  exact ⟨p.2, hm, by simpa using hf⟩

theorem mem_pool0Of (active : List (Intent × Int)) (topScore : Int)
    (x : Intent) (hx : x ∈ pool0Of active topScore) :
    x ∈ nearTopOf active topScore ∧ isModifier x = false := by
  unfold pool0Of at hx
  exact ⟨List.mem_of_mem_filter hx, by
    have := List.of_mem_filter hx
    simpa using this⟩

theorem mem_poolSocial (hA : Bool) (p0 : List Intent) (x : Intent)
    (hx : x ∈ poolSocial hA p0) : x ∈ p0 := by
  unfold poolSocial at hx
  split at hx
  · exact List.mem_of_mem_filter hx
  · exact hx

theorem mem_poolTrouble (p : List Intent) (x : Intent)
    (hx : x ∈ poolTrouble p) : x ∈ p := by
  unfold poolTrouble at hx
  split at hx
  · rename_i hc
    rcases List.mem_cons.mp hx with hx | hx
    · subst hx
      simpa using hc
    · exact List.mem_of_mem_filter hx
  · exact hx

theorem mem_poolCompare (ah : Intent → Bool) (p : List Intent) (x : Intent)
    (hx : x ∈ poolCompare ah p) :
    x ∈ p ∨ (x = compare_request ∧ ah compare_request = true) := by
  unfold poolCompare at hx
  split at hx
  · rename_i hc
    rcases List.mem_cons.mp hx with hx | hx
    · subst hx
      right
      exact ⟨rfl, by simp at hc; exact hc.1.1⟩
    · exact Or.inl hx
  · exact Or.inl hx

theorem mem_poolMetadata (ah : Intent → Bool) (p : List Intent) (x : Intent)
    (hx : x ∈ poolMetadata ah p) :
    x ∈ p ∨ (x = metadata_request ∧ ah metadata_request = true) := by
  unfold poolMetadata at hx
  split at hx
  · rename_i hc
    rcases List.mem_cons.mp hx with hx | hx
    · subst hx
      right
      exact ⟨rfl, by simp at hc; exact hc.1.1⟩
    · exact Or.inl hx
  · exact Or.inl hx

theorem mem_poolFarewell (ah : Intent → Bool) (hA : Bool) (p : List Intent)
    (x : Intent) (hx : x ∈ poolFarewell ah hA p) :
    x ∈ p ∨ (x = farewell ∧ ah farewell = true) := by
  unfold poolFarewell at hx
  split at hx
  · rename_i hc
    rcases List.mem_cons.mp hx with hx | hx
    · subst hx
      right
      refine ⟨rfl, ?_⟩
      simp at hc
      tauto
    · exact Or.inl hx
  · exact Or.inl hx

theorem mem_poolSmalltalk (ah : Intent → Bool) (p : List Intent) (x : Intent)
    (hx : x ∈ poolSmalltalk ah p) :
    x ∈ p ∨ (x = smalltalk ∧ ah smalltalk = true) := by
  unfold poolSmalltalk at hx
  split at hx
  · rename_i hc
    rcases List.mem_cons.mp hx with hx | hx
    · subst hx
      right
      refine ⟨rfl, ?_⟩
      simp at hc
      tauto
    · exact Or.inl (List.mem_of_mem_filter hx)
  · exact Or.inl hx

/-- Structure of the final pool: every member was near-top (after the
modifier/social filters) or is one of the five force-included intents, the
latter only when active. -/
theorem mem_finalPool (ah : Intent → Bool) (p0 : List Intent) (hA : Bool)
    (x : Intent) (hx : x ∈ finalPool ah p0 hA) :
    x ∈ p0 ∨ (ah x = true ∧ (x = compare_request ∨ x = metadata_request ∨
      x = farewell ∨ x = smalltalk)) := by
  unfold finalPool at hx
  rcases mem_poolSmalltalk _ _ _ hx with hx | ⟨hxe, hxa⟩
  · rcases mem_poolFarewell _ _ _ _ hx with hx | ⟨hxe, hxa⟩
    · rcases mem_poolMetadata _ _ _ hx with hx | ⟨hxe, hxa⟩
      · rcases mem_poolCompare _ _ _ hx with hx | ⟨hxe, hxa⟩
        · exact Or.inl (mem_poolSocial _ _ _ (mem_poolTrouble _ _ hx))
        · subst hxe; exact Or.inr ⟨hxa, by tauto⟩
      · subst hxe; exact Or.inr ⟨hxa, by tauto⟩
    · subst hxe; exact Or.inr ⟨hxa, by tauto⟩
  · subst hxe; exact Or.inr ⟨hxa, by tauto⟩

theorem mem_poolCompare_of_mem (ah : Intent → Bool) (p : List Intent)
    (x : Intent) (hx : x ∈ p) : x ∈ poolCompare ah p := by
  unfold poolCompare
  split
  · exact List.mem_cons_of_mem _ hx
  · exact hx

theorem mem_poolMetadata_of_mem (ah : Intent → Bool) (p : List Intent)
    (x : Intent) (hx : x ∈ p) : x ∈ poolMetadata ah p := by
  unfold poolMetadata
  split
  · exact List.mem_cons_of_mem _ hx
  · exact hx

theorem mem_poolFarewell_of_mem (ah : Intent → Bool) (hA : Bool)
    (p : List Intent) (x : Intent) (hx : x ∈ p) :
    x ∈ poolFarewell ah hA p := by
  unfold poolFarewell
  split
  · exact List.mem_cons_of_mem _ hx
  · exact hx

/-- With any actionable intent active the smalltalk force rule is a no-op. -/
theorem poolSmalltalk_id_of_actionable (ah : Intent → Bool) (p : List Intent)
    (i : Intent) (hi : i ∈ [viz_request, data_query, download_request,
      compare_request, metadata_request, troubleshooting])
    (ha : ah i = true) : poolSmalltalk ah p = p := by
  unfold poolSmalltalk
  rw [if_neg]
  intro hc
  rw [Bool.and_eq_true, Bool.and_eq_true, Bool.and_eq_true] at hc
  have := hc.1.1.1
  rw [Bool.not_eq_true', List.any_eq_false] at this
  exact absurd ha (by simpa using this i hi)

theorem compare_mem_poolCompare (ah : Intent → Bool) (p : List Intent)
    (h1 : ah compare_request = true) (h2 : ah data_query = true) :
    compare_request ∈ poolCompare ah p := by
  unfold poolCompare
  split
  · exact List.mem_cons_self _ _
  · rename_i hc
    rw [h1, h2] at hc
    simp at hc
    simpa using hc

theorem compare_mem_finalPool (ah : Intent → Bool) (p0 : List Intent)
    (hA : Bool) (h1 : ah compare_request = true) (h2 : ah data_query = true) :
    compare_request ∈ finalPool ah p0 hA := by
  unfold finalPool
  rw [poolSmalltalk_id_of_actionable ah _ compare_request (by decide) h1]
  exact mem_poolFarewell_of_mem _ _ _ _ (mem_poolMetadata_of_mem _ _ _
    (compare_mem_poolCompare _ _ h1 h2))

theorem ts_mem_poolSocial (hA : Bool) (p0 : List Intent)
    (h : troubleshooting ∈ p0) : troubleshooting ∈ poolSocial hA p0 := by
  unfold poolSocial
  split
  · exact List.mem_filter.mpr ⟨h, by decide⟩
  · exact h

theorem ts_mem_poolTrouble (p : List Intent) (h : troubleshooting ∈ p) :
    troubleshooting ∈ poolTrouble p := by
  unfold poolTrouble
  split
  · exact List.mem_cons_self _ _
  · exact h

theorem ts_mem_finalPool (ah : Intent → Bool) (p0 : List Intent) (hA : Bool)
    (h : troubleshooting ∈ p0) (ha : ah troubleshooting = true) :
    troubleshooting ∈ finalPool ah p0 hA := by
  unfold finalPool
  rw [poolSmalltalk_id_of_actionable ah _ troubleshooting (by decide) ha]
  exact mem_poolFarewell_of_mem _ _ _ _ (mem_poolMetadata_of_mem _ _ _
    (mem_poolCompare_of_mem _ _ _ (ts_mem_poolTrouble _
      (ts_mem_poolSocial _ _ h))))

/- ===================== Lemmas: the resolver ===================== -/

theorem resolveWithTop_primary (s : Scores) (active : List (Intent × Int))
    (ti : Intent) (tv : Int) :
    (resolveWithTop s active ti tv).primary =
      match sortPrec (finalPool (fun i => decide (0 < s i))
          (pool0Of active tv) (hasActionableOf (pool0Of active tv))) with
      | p :: _ => p
      | [] => fallbackPrimary active (modifierHitsOf active) ti := rfl

theorem resolveWithTop_modifiers (s : Scores) (active : List (Intent × Int))
    (ti : Intent) (tv : Int) :
    (resolveWithTop s active ti tv).modifiers = modifierHitsOf active := rfl

theorem resolveWithTop_scores (s : Scores) (active : List (Intent × Int))
    (ti : Intent) (tv : Int) :
    (resolveWithTop s active ti tv).scores = s := rfl

theorem resolveWithTop_coIntents (s : Scores) (active : List (Intent × Int))
    (ti : Intent) (tv : Int) :
    (resolveWithTop s active ti tv).coIntents =
      coIntentsOf active tv (resolveWithTop s active ti tv).primary := rfl

theorem resolveCore_eq_of_active (s : Scores) (ti : Intent) (tv : Int)
    (rest : List (Intent × Int)) (hact : activeOf s = (ti, tv) :: rest) :
    resolveCore s = resolveWithTop s ((ti, tv) :: rest) ti tv := by
  unfold resolveCore
  rw [hact]

theorem resolveCore_eq_of_empty (s : Scores) (hact : activeOf s = []) :
    resolveCore s = ⟨invalid, [], [], s⟩ := by
  unfold resolveCore
  rw [hact]

theorem resolveCore_scores (s : Scores) : (resolveCore s).scores = s := by
  rcases hact : activeOf s with _ | ⟨⟨ti, tv⟩, rest⟩
  · rw [resolveCore_eq_of_empty s hact]
  · rw [resolveCore_eq_of_active s ti tv rest hact]
    rfl

/-- Case analysis on how `resolveWithTop` picks its primary: the head of the
precedence-sorted pool, or the fallback when the pool emptied. -/
theorem resolveWithTop_primary_cases (s : Scores) (active : List (Intent × Int))
    (ti : Intent) (tv : Int) (P : Intent → Prop)
    (hpool : ∀ p r, sortPrec (finalPool (fun i => decide (0 < s i))
      (pool0Of active tv) (hasActionableOf (pool0Of active tv))) = p :: r → P p)
    (hfall : sortPrec (finalPool (fun i => decide (0 < s i))
      (pool0Of active tv) (hasActionableOf (pool0Of active tv))) = [] →
      P (fallbackPrimary active (modifierHitsOf active) ti)) :
    P (resolveWithTop s active ti tv).primary := by
  rw [resolveWithTop_primary]
  rcases hsp : sortPrec (finalPool (fun i => decide (0 < s i))
      (pool0Of active tv) (hasActionableOf (pool0Of active tv))) with _ | ⟨p, r⟩
  · exact hfall hsp
  · exact hpool p r hsp

theorem mem_modifierHitsOf (active : List (Intent × Int)) (x : Intent) :
    x ∈ modifierHitsOf active ↔ ∃ v, (x, v) ∈ active ∧ isModifier x = true := by
  unfold modifierHitsOf
  constructor
  · intro hx
    obtain ⟨p, hp, hxp⟩ := List.mem_map.mp hx
    have hcond := List.of_mem_filter hp
    have hm := List.mem_of_mem_filter hp
    subst hxp
    exact ⟨p.2, hm, hcond⟩
  · rintro ⟨v, hv, hm⟩
    exact List.mem_map.mpr ⟨(x, v), List.mem_filter.mpr ⟨hv, hm⟩, rfl⟩

theorem activeOf_nil_nonpos (s : Scores) (h : activeOf s = []) (i : Intent) :
    s i ≤ 0 := by
  by_contra hc
  push_neg at hc
  exact activeOf_ne_nil s i hc h

/-- The intents whose precedence index is not positive: troubleshooting
(index 0) and the intents absent from `PRECEDENCE` (index `-1`). -/
theorem precIdx_nonpos_cases : ∀ i : Intent, precIdx i ≤ 0 →
    i = troubleshooting ∨ i = time_change ∨ i = filter_change ∨
    i = affirmative ∨ i = negative ∨ i = ambiguous := by decide

theorem fallbackPrimary_not_modifier (active : List (Intent × Int))
    (ti : Intent) (hti : ∃ v, (ti, v) ∈ active) :
    isModifier (fallbackPrimary active (modifierHitsOf active) ti) = false := by
  unfold fallbackPrimary
  rcases hf : active.filter (fun p => !isModifier p.1 && p.1 != statement &&
      p.1 != invalid && !isSocialNP p.1) with _ | ⟨⟨i, w⟩, r⟩
  · rw [hf]
    show isModifier
      (if (modifierHitsOf active).isEmpty then ti else statement) = false
    split
    · rename_i hemp
      obtain ⟨v, hv⟩ := hti
      by_contra hmod
      rw [Bool.not_eq_false] at hmod
      have hmem : ti ∈ modifierHitsOf active :=
        (mem_modifierHitsOf active ti).mpr ⟨v, hv, hmod⟩
      cases hmh : modifierHitsOf active with
      | nil => rw [hmh] at hmem; exact absurd hmem (List.not_mem_nil ti)
      | cons a l => rw [hmh] at hemp; exact absurd hemp (by simp)
    · rfl
  · rw [hf]
    show isModifier i = false
    have hmem : (⟨i, w⟩ : Intent × Int) ∈ active.filter
        (fun p => !isModifier p.1 && p.1 != statement && p.1 != invalid &&
          !isSocialNP p.1) := by
      rw [hf]
      exact List.mem_cons_self _ _
    have hcond := List.of_mem_filter hmem
    simp only [Bool.and_eq_true, bne_iff_ne, Bool.not_eq_true'] at hcond
    exact hcond.1.1.1

/-- The resolver never reports a modifier intent as the primary. -/
theorem resolveCore_primary_not_modifier (s : Scores) :
    isModifier (resolveCore s).primary = false := by
  rcases hact : activeOf s with _ | ⟨⟨ti, tv⟩, rest⟩
  · rw [resolveCore_eq_of_empty s hact]
    rfl
  · rw [resolveCore_eq_of_active s ti tv rest hact]
    refine resolveWithTop_primary_cases s _ ti tv
      (fun x => isModifier x = false) ?_ ?_
    · intro p r hsp
      have hp := sortPrec_head_mem _ _ _ hsp
      rcases mem_finalPool _ _ _ _ hp with hp0 | ⟨_, hf⟩
      · exact (mem_pool0Of _ _ _ hp0).2
      · rcases hf with h | h | h | h <;> subst h <;> rfl
    · intro _
      exact fallbackPrimary_not_modifier _ ti ⟨tv, List.mem_cons_self _ _⟩

/-- The modifiers list holds exactly the active modifier intents. -/
theorem resolveCore_modifiers_iff (s : Scores) (m : Intent) :
    m ∈ (resolveCore s).modifiers ↔ (isModifier m = true ∧ 0 < s m) := by
  rcases hact : activeOf s with _ | ⟨⟨ti, tv⟩, rest⟩
  · rw [resolveCore_eq_of_empty s hact]
    constructor
    · intro h
      exact absurd h (List.not_mem_nil m)
    · rintro ⟨_, hpos⟩
      exact absurd hpos (not_lt.mpr (activeOf_nil_nonpos s hact m))
  · rw [resolveCore_eq_of_active s ti tv rest hact, resolveWithTop_modifiers,
      ← hact, mem_modifierHitsOf]
    constructor
    · rintro ⟨v, hv, hm⟩
      exact ⟨hm, (activeOf_mem s (m, v) hv).1⟩
    · rintro ⟨hm, hpos⟩
      exact ⟨s m, activeOf_mem_of_pos s m hpos, hm⟩

/-- Every reported co-intent differs from the primary and is no modifier. -/
theorem resolveCore_coIntents_excl (s : Scores) (x : Intent)
    (hx : x ∈ (resolveCore s).coIntents) :
    x ≠ (resolveCore s).primary ∧ isModifier x = false := by
  rcases hact : activeOf s with _ | ⟨⟨ti, tv⟩, rest⟩
  · rw [resolveCore_eq_of_empty s hact] at hx
    exact absurd hx (List.not_mem_nil x)
  · rw [resolveCore_eq_of_active s ti tv rest hact] at hx ⊢
    rw [resolveWithTop_coIntents] at hx
    unfold coIntentsOf at hx
    obtain ⟨p, hp, hxp⟩ := List.mem_map.mp hx
    have hcond := List.of_mem_filter hp
    subst hxp
    simp only [Bool.and_eq_true, bne_iff_ne, Bool.not_eq_true'] at hcond
    exact ⟨hcond.1.1, hcond.1.2⟩

theorem fallbackPrimary_ne_invalid (active : List (Intent × Int))
    (mh : List Intent) (ti : Intent) (hti : ti ≠ invalid) :
    fallbackPrimary active mh ti ≠ invalid := by
  unfold fallbackPrimary
  rcases hf : active.filter (fun p => !isModifier p.1 && p.1 != statement &&
      p.1 != invalid && !isSocialNP p.1) with _ | ⟨⟨i, w⟩, r2⟩
  · rw [hf]
    show (if mh.isEmpty then ti else statement) ≠ invalid
    split
    · exact hti
    · decide
  · rw [hf]
    show i ≠ invalid
    have hmem : (⟨i, w⟩ : Intent × Int) ∈ active.filter
        (fun p => !isModifier p.1 && p.1 != statement && p.1 != invalid &&
          !isSocialNP p.1) := by
      rw [hf]
      exact List.mem_cons_self _ _
    have hcond := List.of_mem_filter hmem
    simp only [Bool.and_eq_true, bne_iff_ne, Bool.not_eq_true'] at hcond
    exact hcond.1.2

/-- Whenever some intent is active and `invalid` scored zero, the resolver
does not report `invalid`. -/
theorem resolveCore_primary_ne_invalid (s : Scores) (j : Intent)
    (hj : 0 < s j) (hinv : s invalid = 0) :
    (resolveCore s).primary ≠ invalid := by
  rcases hact : activeOf s with _ | ⟨⟨ti, tv⟩, rest⟩
  · exact absurd hact (activeOf_ne_nil s j hj)
  · rw [resolveCore_eq_of_active s ti tv rest hact]
    refine resolveWithTop_primary_cases s _ ti tv (fun x => x ≠ invalid) ?_ ?_
    · intro p r hsp
      have hp := sortPrec_head_mem _ _ _ hsp
      rcases mem_finalPool _ _ _ _ hp with hp0 | ⟨_, hf⟩
      · obtain ⟨hnt, _⟩ := mem_pool0Of _ _ _ hp0
        obtain ⟨v, hv, _⟩ := mem_nearTopOf _ _ _ hnt
        have hv2 : (p, v) ∈ activeOf s := by
          rw [hact]
          exact hv
        have hpos : 0 < s p := (activeOf_mem s _ hv2).1
        intro hc
        rw [hc] at hpos
        omega
      · rcases hf with h | h | h | h <;> subst h <;> decide
    · intro _
      have hmem : (ti, tv) ∈ activeOf s := by
        rw [hact]
        exact List.mem_cons_self _ _
      have hpos : 0 < s ti := (activeOf_mem s _ hmem).1
      refine fallbackPrimary_ne_invalid _ _ ti ?_
      intro hc
      rw [hc] at hpos
      omega

/-- Near-top troubleshooting wins: when troubleshooting survives into the
near-top pool and none of the intents that sort before index 0 (the ones
absent from `PRECEDENCE`) does, the primary is troubleshooting. -/
theorem resolveCore_trouble (s : Scores) (ti : Intent) (tv : Int)
    (rest : List (Intent × Int)) (hact : activeOf s = (ti, tv) :: rest)
    (hts : troubleshooting ∈ pool0Of ((ti, tv) :: rest) tv)
    (haff : affirmative ∉ pool0Of ((ti, tv) :: rest) tv)
    (hneg : negative ∉ pool0Of ((ti, tv) :: rest) tv)
    (hamb : ambiguous ∉ pool0Of ((ti, tv) :: rest) tv) :
    (resolveCore s).primary = troubleshooting := by
  have hts_pos : 0 < s troubleshooting := by
    obtain ⟨hnt, _⟩ := mem_pool0Of _ _ _ hts
    obtain ⟨v, hv, _⟩ := mem_nearTopOf _ _ _ hnt
    have hv2 : (troubleshooting, v) ∈ activeOf s := by
      rw [hact]
      exact hv
    exact (activeOf_mem s _ hv2).1
  have hmem : troubleshooting ∈ finalPool (fun i => decide (0 < s i))
      (pool0Of ((ti, tv) :: rest) tv)
      (hasActionableOf (pool0Of ((ti, tv) :: rest) tv)) :=
    ts_mem_finalPool _ _ _ hts (by simpa using hts_pos)
  rw [resolveCore_eq_of_active s ti tv rest hact]
  refine resolveWithTop_primary_cases s _ ti tv
    (fun x => x = troubleshooting) ?_ ?_
  · intro p r hsp
    have hple := sortPrec_head_min _ _ _ hsp troubleshooting hmem
    have h0 : precIdx troubleshooting = 0 := by decide
    rw [h0] at hple
    have hp := sortPrec_head_mem _ _ _ hsp
    rcases mem_finalPool _ _ _ _ hp with hp0 | ⟨_, hf⟩
    · rcases precIdx_nonpos_cases p hple with h | h | h | h | h | h
      · exact h
      · subst h
        exact absurd (mem_pool0Of _ _ _ hp0).2 (by decide)
      · subst h
        exact absurd (mem_pool0Of _ _ _ hp0).2 (by decide)
      · subst h
        exact absurd hp0 haff
      · subst h
        exact absurd hp0 hneg
      · subst h
        exact absurd hp0 hamb
    · rcases hf with h | h | h | h <;> subst h <;>
        exact absurd hple (by decide)
  · intro hnil
    exact absurd hnil (sortPrec_ne_nil_of_mem _ _ hmem)

/-- When compare_request and data_query are both active, the forced pool
inclusion and compare_request's higher precedence keep data_query from being
the primary. -/
theorem resolveCore_compare_ne_dq (s : Scores)
    (h1 : 0 < s compare_request) (h2 : 0 < s data_query) :
    (resolveCore s).primary ≠ data_query := by
  rcases hact : activeOf s with _ | ⟨⟨ti, tv⟩, rest⟩
  · exact absurd hact (activeOf_ne_nil s compare_request h1)
  · rw [resolveCore_eq_of_active s ti tv rest hact]
    have hmem : compare_request ∈ finalPool (fun i => decide (0 < s i))
        (pool0Of ((ti, tv) :: rest) tv)
        (hasActionableOf (pool0Of ((ti, tv) :: rest) tv)) :=
      compare_mem_finalPool _ _ _ (by simpa using h1) (by simpa using h2)
    refine resolveWithTop_primary_cases s _ ti tv
      (fun x => x ≠ data_query) ?_ ?_
    · intro p r hsp
      have hple := sortPrec_head_min _ _ _ hsp compare_request hmem
      intro hc
      subst hc
      exact absurd hple (by decide)
    · intro hnil
      exact absurd hnil (sortPrec_ne_nil_of_mem _ _ hmem)

/-- The resolver on the empty-input score vector reports `invalid`. -/
theorem resolveCore_empty_seed :
    (resolveCore (updS zeroS invalid 10)).primary = invalid := by decide

/-- The resolver on the bare statement-seed vector reports `statement`. -/
theorem resolveCore_statement_seed :
    (resolveCore (updS zeroS statement 6)).primary = statement := by decide

/- ===================== The claims ===================== -/

/-- C1: the claim says that whenever greeting and farewell both score
positively with no actionable intent present, the primary is farewell. The
code contradicts it: on "hi there bye" exactly greeting and farewell are
active (no actionable intent), yet the precedence order (greeting before
farewell, contradicting the comment above PRECEDENCE) makes resolveIntents
pick greeting. -/
theorem c1 :
    0 < score "hi there bye" false greeting ∧
    0 < score "hi there bye" false farewell ∧
    (activeOf (score "hi there bye" false)).map Prod.fst =
      [greeting, farewell] ∧
    (resolveIntents "hi there bye" false).primary = greeting := by
  refine ⟨by decide, by decide, by decide, by decide⟩

/-- C4: the claim says resolveIntents on "good evening" gives greeting on a
first message and farewell later. The code gives greeting in both cases (the
ambiguous score is reassigned, but greeting also matches and precedence puts
greeting first), contradicting the spec and the farewell test file. -/
theorem c4 :
    (resolveIntents "good evening" true).primary = greeting ∧
    (resolveIntents "good evening" false).primary = greeting ∧
    score "good evening" false ambiguous = 0 := by
  refine ⟨by decide, by decide, by decide⟩

/-- C5 (amended): every entry of the returned score vector other than
greeting and question is non-negative; the original claim (all entries
non-negative) fails because the farewell-suppression heuristics subtract
from greeting and question without clamping at zero. -/
theorem c5 (text : String) (f : Bool) (i : Intent)
    (hg : i ≠ greeting) (hq : i ≠ question) : 0 ≤ score text f i :=
  score_nonneg_except text f i hg hq

theorem c5_witness : 0 ≤ score "bye" false farewell :=
  c5 "bye" false farewell (by decide) (by decide)

/-- C5 counterexample: on "hu bye" the farewell heuristic pushes the
greeting entry of the returned score vector below zero. -/
theorem c5_cx : score "hu bye" false greeting < 0 := by decide

/-- C10: on the bare year "2020" only the modifier time_change scores
positively, the empty-pool fallback returns statement while the statement
score stays zero (the 0.6 statement seed fires only when every intent scored
zero), and the modifiers list is [time_change]. -/
theorem c10 :
    (INTENTS.filter fun i => decide (0 < score "2020" false i)) =
      [time_change] ∧
    (resolveIntents "2020" false).primary = statement ∧
    score "2020" false statement = 0 ∧
    (resolveIntents "2020" false).modifiers = [time_change] := by
  refine ⟨by decide, by decide, by decide, by decide⟩

/-- C6: resolveIntents is total (a Lean function returning a well-formed
Resolution carrying exactly the computed score vector), it reports invalid
precisely for input whose normalisation is empty (empty or whitespace-only
text), and when no signal fired (the score vector is the bare statement
seed) it degrades to statement. -/
theorem c6 (text : String) (f : Bool) :
    (resolveIntents text f).scores = score text f ∧
    ((resolveIntents text f).primary = invalid ↔
      (normalize text).toList = []) ∧
    (score text f = updS zeroS statement 6 →
      (resolveIntents text f).primary = statement) := by
  refine ⟨resolveCore_scores _, ⟨?_, ?_⟩, ?_⟩
  · intro hinv
    by_contra hne
    obtain ⟨i, hi⟩ := scoreNonempty_exists_pos (normalize text).toList f
    rw [← score_of_nonempty text f hne] at hi
    exact resolveCore_primary_ne_invalid (score text f) i hi
      (score_invalid_zero text f hne) hinv
  · intro hemp
    show (resolveCore (score text f)).primary = invalid
    rw [score_of_empty text f hemp]
    exact resolveCore_empty_seed
  · intro hseed
    show (resolveCore (score text f)).primary = statement
    rw [hseed]
    exact resolveCore_statement_seed

/-- C7: the primary intent is never a modifier (time_change or
filter_change), the modifiers list holds exactly the active modifier
intents, and every co-intent differs from the primary and is itself no
modifier. -/
theorem c7 (text : String) (f : Bool) :
    isModifier (resolveIntents text f).primary = false ∧
    (∀ m : Intent, m ∈ (resolveIntents text f).modifiers ↔
      (isModifier m = true ∧ 0 < score text f m)) ∧
    (∀ x ∈ (resolveIntents text f).coIntents,
      x ≠ (resolveIntents text f).primary ∧ isModifier x = false) :=
  ⟨resolveCore_primary_not_modifier (score text f),
   fun m => resolveCore_modifiers_iff (score text f) m,
   fun x hx => resolveCore_coIntents_excl (score text f) x hx⟩

/-- C3 (amended): troubleshooting wins whenever it survives into the
near-top candidate pool and no intent absent from PRECEDENCE (affirmative,
negative — their indexOf is -1, which sorts before troubleshooting) is
there too; the original unconditional claim fails when the data-query cues
push troubleshooting more than NEAR_TIE_DELTA below the top score. -/
theorem c3 (text : String) (f : Bool) (ti : Intent) (tv : Int)
    (rest : List (Intent × Int))
    (hact : activeOf (score text f) = (ti, tv) :: rest)
    (hts : troubleshooting ∈ pool0Of (activeOf (score text f)) tv)
    (haff : affirmative ∉ pool0Of (activeOf (score text f)) tv)
    (hneg : negative ∉ pool0Of (activeOf (score text f)) tv) :
    (resolveIntents text f).primary = troubleshooting := by
  have hamb : ambiguous ∉ pool0Of (activeOf (score text f)) tv := by
    intro hc
    obtain ⟨hnt, _⟩ := mem_pool0Of _ _ _ hc
    obtain ⟨v, hv, _⟩ := mem_nearTopOf _ _ _ hnt
    have hpos : 0 < score text f ambiguous := (activeOf_mem _ _ hv).1
    rw [score_ambiguous_zero] at hpos
    omega
  rw [hact] at hts haff hneg hamb
  exact resolveCore_trouble (score text f) ti tv rest hact hts haff hneg hamb

theorem c3_witness :
    (resolveIntents "error electricity" false).primary = troubleshooting :=
  c3 "error electricity" false troubleshooting 32 [(data_query, 9)]
    (by decide) (by decide) (by decide) (by decide)

/-- C3 counterexample: this input contains a troubleshooting cue ("error")
and data-query cues, both score positively, yet the primary is data_query,
because the inflated data-query score leaves troubleshooting outside the
near-top pool. -/
theorem c3_cx :
    0 < score "what is the electricity consumption in france? error" false
      troubleshooting ∧
    0 < score "what is the electricity consumption in france? error" false
      data_query ∧
    (resolveIntents "what is the electricity consumption in france? error"
      false).primary = data_query := by
  refine ⟨by decide, by decide, by decide⟩

/-- C8: whenever compare_request and data_query both score positively, the
forced pool inclusion and the precedence order keep data_query from being
the primary; on the compare phrase of the spec the primary is
compare_request even though data_query also scores positively. -/
theorem c8 :
    (∀ (text : String) (f : Bool), 0 < score text f compare_request →
        0 < score text f data_query →
        (resolveIntents text f).primary ≠ data_query) ∧
    (resolveIntents "compare wind energy between Germany and Spain"
        false).primary = compare_request ∧
    0 < score "compare wind energy between Germany and Spain" false
      data_query := by
  refine ⟨?_, by decide, by decide⟩
  intro text f h1 h2
  exact resolveCore_compare_ne_dq (score text f) h1 h2

set_option maxHeartbeats 16000000 in
/-- C2: the spec and SPELL_CORRECTION_FIX.md say the protected set includes
"see" and "till", so "see you" and "till tomorrow" pass the spell corrector
unchanged. In the code SOCIAL_TOKENS lacks those words, so the corrector
rewrites "see you" to "she you" and "till tomorrow" to "will tomorrow". -/
theorem c2 :
    preprocessCleaned "see you" = "she you" ∧
    preprocessCleaned "till tomorrow" = "will tomorrow" := by
  refine ⟨by decide, by decide⟩

set_option maxHeartbeats 16000000 in
/-- C9: elongation collapse sends both "heyyyyy" and "heyyy" to the same
2-repeat token "heyy" before dictionary lookup, the full preprocessing
pipeline therefore cleans both inputs to the same string, and resolving
that cleaned string yields greeting. -/
theorem c9 :
    String.mk (collapseElongationsToken "heyyyyy".toList) = "heyy" ∧
    String.mk (collapseElongationsToken "heyyy".toList) = "heyy" ∧
    preprocessCleaned "heyyyyy" = preprocessCleaned "heyyy" ∧
    (resolveIntents (preprocessCleaned "heyyyyy") false).primary =
      greeting := by
  have h5 : preprocessCleaned "heyyyyy" = "hey" := by decide
  have h3 : preprocessCleaned "heyyy" = "hey" := by decide
  refine ⟨by decide, by decide, ?_, ?_⟩
  · rw [h5, h3]
  · rw [h5]
    decide
